import Mathlib

/-!
# curve25519: generic big-integer point arithmetic on the Montgomery curve

A shallow embedding of `curve25519.go`.

* Go's `*big.Int` values are Lean `Int`s; `Mul`, `Add`, `Sub` are the integer operations
  and `Mod` is the Euclidean modulus, which is `%` on `Int`.
* `ModInverse` returns `nil` for an operand that is not coprime to the modulus.  `Add` and
  `Double` hand that `nil` to `Mul`, which panics; the panic is the result `none`.
* The only curve record the package builds is the one of `initCurve25519`; the methods
  take the receiver as an argument, as in the source.
* A byte is a `Nat` below 256 and a byte slice or `[32]byte` array is a list of bytes;
  `Bytes` and `SetBytes` are the big-endian conversions of `math/big`.
* `ScalarMult` and `ScalarBaseMult` take the imported primitive as a parameter; where a
  claim is about the primitive itself it is the function X25519 of RFC 7748.
* `sync.Once` is a flag in the package state; calls are sequential.
-/

namespace Curve25519

/-! ## Data model -/

/-- The record `elliptic.CurveParams` of the Go standard library, as far as the
source fills it in (`initCurve25519` leaves no field it sets out). -/
structure CurveParams where
  P : Int
  N : Int
  B : Int
  Gx : Int
  Gy : Int
  BitSize : Int
  Name : String
  deriving DecidableEq, Repr

/-- The receiver type `Curve25519Params`: a holder of the parameter record. -/
structure Curve25519Params where
  ep : CurveParams
  deriving DecidableEq, Repr

/-- The parameter record built by `initCurve25519` (decimal constants of the source). -/
def initCurve25519 : Curve25519Params :=
  { ep :=
      { Name := "curve-25519"
        P := 57896044618658097711785492504343953926634992332820282019728792003956564819949
        N := 7237005577332262213973186563042994240857116359379907606001950938285454250989
        B := 486662
        Gx := 9
        Gy := 14781619447589544791020593568409986887264606134616475288964881837755586237401
        BitSize := 256 } }

/-- The value `CurveP25519()` returns: the package variable set once by `initAll`. -/
def CurveP25519 : Curve25519Params := initCurve25519

/-- The method `Params`: hands out the stored record. -/
def Params (curve : Curve25519Params) : CurveParams := curve.ep

/-! ## The library operation `big.Int.ModInverse` -/

/-- The method `(*big.Int).ModInverse(g, n)` of Go's `math/big`: a negative `n` is
negated, a negative `g` is reduced modulo `n`, and the extended gcd `d = g*x + n*y`
is taken.  When `d ≠ 1` the result is `nil` (`none`); otherwise the Bézout
coefficient `x` is brought into the range `0 ≤ z < |n|` (Go adds `n` to a negative `x`;
that is the residue `x % n`). -/
def ModInverse (g n : Int) : Option Int :=
  let n := if n < 0 then -n else n
  let g := if g < 0 then g % n else g
  if Int.gcd g n = 1 then some (Int.gcdA g n % n) else none

/-! ## Point arithmetic -/

/-- The method `IsOnCurve`: `v^2 = u^3 + A*u^2 + u`, both sides reduced by `Mod`. -/
def IsOnCurve (curve : Curve25519Params) (x y : Int) : Bool :=
  let t0 := x * x
  let t0 := t0 * curve.ep.B
  let t2 := x * x
  let t2 := t2 * x
  let t0 := t0 + t2
  let t0 := t0 + x
  let t0 := t0 % curve.ep.P
  let t1 := y * y
  let t1 := t1 % curve.ep.P
  decide (t0 = t1)

/-- The method `Add`.  `none` is the panic of `t2.Mul(t0, t1)` on the nil `t1`
that `ModInverse` returns for a non-invertible `x2 - x1`. -/
def Add (curve : Curve25519Params) (x1 y1 x2 y2 : Int) : Option (Int × Int) :=
  if x1 = 0 ∨ y1 = 0 then some (x2, y2)
  else if x2 = 0 ∨ y2 = 0 then some (x1, y1)
  else
    let t0 := y2 - y1
    let t1 := x2 - x1
    match ModInverse t1 curve.ep.P with
    | none => none
    | some t1 =>
      let t2 := t0 * t1
      let t0 := t2 * t2
      let t0 := t0 * 1
      let t0 := t0 - curve.ep.B
      let t0 := t0 - x1
      let x := t0 - x2
      let t0 := x1 - x
      let t0 := t0 * t2
      let y := t0 - y1
      let x := x % curve.ep.P
      let y := y % curve.ep.P
      some (x, y)

/-- The method `Double`.  `none` is the panic of `t2.Mul(t1, t0)` on the nil `t0`
that `ModInverse` returns for a non-invertible `2*y1`. -/
def Double (curve : Curve25519Params) (x1 y1 : Int) : Option (Int × Int) :=
  if x1 = 0 ∧ y1 = 0 then some (x1, y1)
  else
    let t0 := 3 * x1
    let t1 := 2 * curve.ep.B
    let t0 := t0 + t1
    let t0 := t0 * x1
    let t1 := t0 + 1
    let t0 := 2 * 1
    let t0 := t0 * y1
    match ModInverse t0 curve.ep.P with
    | none => none
    | some t0 =>
      let t2 := t1 * t0
      let t0 := t2 * t2
      let t0 := t0 * 1
      let t0 := t0 - curve.ep.B
      let t0 := t0 - x1
      let x := t0 - x1
      let t0 := x1 - x
      let t0 := t0 * t2
      let y := t0 - y1
      let x := x % curve.ep.P
      let y := y % curve.ep.P
      some (x, y)

/-! ## Modular powers, for the primality certificate of `P` -/

/-- Square-and-multiply modular power with an explicit iteration budget. -/
def powModAux (m : ℕ) : ℕ → ℕ → ℕ → ℕ → ℕ
  | 0, _, _, acc => acc
  | fuel + 1, b, e, acc =>
    if e = 0 then acc
    else powModAux m fuel (b * b % m) (e / 2) (if e % 2 = 1 then acc * b % m else acc)

/-- Modular power `a ^ e mod m` by square-and-multiply; the exponent itself bounds the
number of rounds. -/
def powMod (a e m : ℕ) : ℕ := powModAux m e (a % m) e 1 % m

/-- The general case of `Double`: the statements that follow the identity guard, that is
the slope through `ModInverse` and the two coordinates computed from it. -/
def DoubleGeneralCase (curve : Curve25519Params) (x1 y1 : Int) : Option (Int × Int) :=
  let t0 := 3 * x1
  let t1 := 2 * curve.ep.B
  let t0 := t0 + t1
  let t0 := t0 * x1
  let t1 := t0 + 1
  let t0 := 2 * 1
  let t0 := t0 * y1
  match ModInverse t0 curve.ep.P with
  | none => none
  | some t0 =>
    let t2 := t1 * t0
    let t0 := t2 * t2
    let t0 := t0 * 1
    let t0 := t0 - curve.ep.B
    let t0 := t0 - x1
    let x := t0 - x1
    let t0 := x1 - x
    let t0 := t0 * t2
    let y := t0 - y1
    let x := x % curve.ep.P
    let y := y % curve.ep.P
    some (x, y)

/-! ## Byte buffers and the byte conversions of `math/big`

A byte is a `Nat` below 256; a byte slice and a `[32]byte` array are lists of bytes. -/

/-- Base-256 digits of `n`, lowest digit first, none for `0`; the first argument bounds
the number of digits produced. -/
def bytesLE : Nat → Nat → List Nat
  | 0, _ => []
  | fuel + 1, n => if n = 0 then [] else (n % 256) :: bytesLE fuel (n / 256)

/-- The method `(*big.Int).Bytes` of Go's `math/big`: the absolute value as a
big-endian byte slice, without leading zero bytes (empty for `0`). -/
def Bytes (x : Int) : List Nat := (bytesLE x.natAbs x.natAbs).reverse

/-- The method `(*big.Int).SetBytes` of Go's `math/big`: the buffer read as a big-endian
unsigned integer. -/
def SetBytes (buf : List Nat) : Int :=
  List.foldl (fun (acc : Int) (b : Nat) => acc * 256 + (b : Int)) 0 buf

/-- The built-in `copy(dst[:], src)` into a zeroed `[32]byte`: the first
`min(len(src), 32)` bytes of `src`, the remaining bytes left at zero. -/
def copy32 (src : List Nat) : List Nat := src.take 32 ++ List.replicate (32 - src.length) 0

/-- The byte string read as a little-endian unsigned integer (byte `i` weighs `256^i`). -/
def decodeLittleEndian (b : List Nat) : Nat := b.foldr (fun x acc => x + 256 * acc) 0

/-- The 32-byte little-endian encoding of `n`: byte `i` holds bits `8i .. 8i+7` of `n`. -/
def encodeLittleEndian32 (n : Nat) : List Nat :=
  (List.range 32).map (fun i => n / 256 ^ i % 256)

/-! ## The scalar multiplication adapter -/

/-- The two entry points of the imported package `curve25519p`
(`golang.org/x/crypto/curve25519`), whose code is outside the repository:
`ScalarMult(&dst, &s, &uB)` maps the scalar array and the point array to the array it
writes into `dst`, and `ScalarBaseMult(&dst, &s)` maps the scalar array to it. -/
structure Primitive where
  ScalarMult : List Nat → List Nat → List Nat
  ScalarBaseMult : List Nat → List Nat

/-- The two arrays `s` and `uB` that `ScalarMult` has filled when it calls the
primitive: `copy(s[:], k)` and `copy(uB[:], x1.Bytes())`. -/
def ScalarMultBuffers (x1 : Int) (k : List Nat) : List Nat × List Nat :=
  let b := Bytes x1
  let s := copy32 k
  let uB := copy32 b
  (s, uB)

/-- The method `ScalarMult`, with the imported primitive as a parameter. -/
def ScalarMult (prim : Primitive) (_curve : Curve25519Params) (x1 _y1 : Int) (k : List Nat) :
    Int × Int :=
  let (s, uB) := ScalarMultBuffers x1 k
  let dst := prim.ScalarMult s uB
  let u := SetBytes dst
  let v := 0
  (u, v)

/-- The array `s` that `ScalarBaseMult` has filled when it calls the primitive:
`copy(s[:], k)`. -/
def ScalarBaseMultBuffer (k : List Nat) : List Nat := copy32 k

/-- The method `ScalarBaseMult`, with the imported primitive as a parameter. -/
def ScalarBaseMult (prim : Primitive) (_curve : Curve25519Params) (k : List Nat) : Int × Int :=
  let s := ScalarBaseMultBuffer k
  let dst := prim.ScalarBaseMult s
  let u := SetBytes dst
  let v := 0
  (u, v)

/-! ## The curve accessor -/

/-- The package variables `initonce` and `curve25519`: whether the `sync.Once` has
fired, and the pointer it guards (`nil` before the first call). -/
structure PackageState where
  initonce : Bool
  curve25519 : Option Curve25519Params
  deriving DecidableEq, Repr

/-- The package state at program start. -/
def PackageState.start : PackageState := { initonce := false, curve25519 := none }

/-- The function `initAll`: runs `initCurve25519`, which stores the record it builds. -/
def initAll (st : PackageState) : PackageState := { st with curve25519 := some initCurve25519 }

/-- The function `CurveP25519` as a step on the package state: `initonce.Do(initAll)`
runs `initAll` on the first call only, then the stored pointer is returned. -/
def callCurveP25519 (st : PackageState) : Option Curve25519Params × PackageState :=
  let st := if st.initonce then st else { initAll st with initonce := true }
  (st.curve25519, st)

/-- The package state after `n` calls of `CurveP25519`. -/
def afterCalls : Nat → PackageState
  | 0 => PackageState.start
  | n + 1 => (callCurveP25519 (afterCalls n)).2

/-! ## The imported primitive -/

/-- The field prime `2^255 - 19` of X25519. -/
def x25519Prime : Nat :=
  57896044618658097711785492504343953926634992332820282019728792003956564819949

/-- The scalar decoding of X25519 (`e[0] &= 248; e[31] &= 127; e[31] |= 64`), read as a
little-endian integer. -/
def decodeScalar25519 (k : List Nat) : Nat :=
  let e := k.set 0 (Nat.land (k.getD 0 0) 248)
  let e := e.set 31 (Nat.land (e.getD 31 0) 127)
  let e := e.set 31 (Nat.lor (e.getD 31 0) 64)
  decodeLittleEndian e

/-- The point decoding of X25519: little-endian, the top bit of the last byte ignored. -/
def decodeUCoordinate (u : List Nat) : Nat := decodeLittleEndian u % 2 ^ 255

/-- The working variables of the Montgomery ladder. -/
structure LadderState where
  x2 : Nat
  z2 : Nat
  x3 : Nat
  z3 : Nat
  swap : Nat

/-- One round of the Montgomery ladder, for bit `t` of the scalar `k`. -/
def ladderStep (x1 k t : Nat) (st : LadderState) : LadderState :=
  let p := x25519Prime
  let kt := k / 2 ^ t % 2
  let swap := (st.swap + kt) % 2
  let x2 := if swap = 1 then st.x3 else st.x2
  let x3 := if swap = 1 then st.x2 else st.x3
  let z2 := if swap = 1 then st.z3 else st.z2
  let z3 := if swap = 1 then st.z2 else st.z3
  let a := (x2 + z2) % p
  let aa := a * a % p
  let b := (x2 + p - z2) % p
  let bb := b * b % p
  let e := (aa + p - bb) % p
  let c := (x3 + z3) % p
  let d := (x3 + p - z3) % p
  let da := d * a % p
  let cb := c * b % p
  { x3 := (da + cb) * (da + cb) % p
    z3 := x1 * ((da + p - cb) * (da + p - cb) % p) % p
    x2 := aa * bb % p
    z2 := e * ((aa + 121665 * e) % p) % p
    swap := kt }

/-- The rounds of the ladder for the bits `t - 1, …, 0` of the scalar. -/
def ladder (x1 k : Nat) : Nat → LadderState → LadderState
  | 0, st => st
  | t + 1, st => ladder x1 k t (ladderStep x1 k t st)

/-- Modelled from the spec: the external primitive behind `curve25519p.ScalarMult`,
whose code is outside the repository.  It is the function X25519 of RFC 7748,
section 5: the scalar is clamped, the ladder runs over its bits 254 down to 0, and the
affine u-coordinate `x2 / z2` is written as 32 little-endian bytes. -/
def X25519 (k u : List Nat) : List Nat :=
  let p := x25519Prime
  let x1 := decodeUCoordinate u % p
  let st := ladder x1 (decodeScalar25519 k) 255 { x2 := 1, z2 := 0, x3 := x1, z3 := 1, swap := 0 }
  let x2 := if st.swap = 1 then st.x3 else st.x2
  let z2 := if st.swap = 1 then st.z3 else st.z2
  encodeLittleEndian32 (x2 * powMod z2 (p - 2) p % p)

/-- The base point of the primitive: the byte `9` followed by 31 zero bytes. -/
def basePoint : List Nat := 9 :: List.replicate 31 0

/-- Modelled from the spec: the imported primitive, with `ScalarMult` the function
X25519 and `ScalarBaseMult` the same function at the base point. -/
def x25519Primitive : Primitive :=
  { ScalarMult := fun s u => X25519 s u
    ScalarBaseMult := fun s => X25519 s basePoint }

/-- The prime modulus `P` of the constructed curve. -/
abbrev fieldP : Int := (Params CurveP25519).P

/-- The Montgomery coefficient `A`, kept in the slot `B` of the record. -/
abbrev coeffA : Int := (Params CurveP25519).B

/-! ## Facts about the parameters -/

theorem fieldP_eq : fieldP = 2 ^ 255 - 19 := by
  norm_num [fieldP, Params, CurveP25519, initCurve25519]

theorem coeffA_eq : coeffA = 486662 := rfl

/-! ## The contract of `ModInverse` -/

/-- Reducing a negative operand does not change coprimality with the modulus. -/
theorem gcd_reduced_eq_one_iff (g n : Int) :
    Int.gcd (if g < 0 then g % n else g) n = 1 ↔ Int.gcd g n = 1 := by
  split
  · rw [Int.gcd_eq_one_iff_coprime, Int.gcd_eq_one_iff_coprime]
    have h : g = g % n + n * (g / n) := (Int.emod_add_ediv g n).symm
    conv_rhs => rw [h]
    exact (IsCoprime.add_mul_left_left_iff).symm
  · rfl

theorem reduced_modEq (g n : Int) : (if g < 0 then g % n else g) ≡ g [ZMOD n] := by
  split
  · exact Int.mod_modEq g n
  · rfl

/-- For a positive modulus `ModInverse` returns a value exactly when the operand is
coprime to the modulus. -/
theorem ModInverse_isSome_iff {g n : Int} (hn : 0 < n) :
    (ModInverse g n).isSome = true ↔ Int.gcd g n = 1 := by
  unfold ModInverse
  simp only [not_lt.mpr hn.le, if_false]
  rw [← gcd_reduced_eq_one_iff g n]
  split <;> simp_all

theorem ModInverse_eq_none_iff {g n : Int} (hn : 0 < n) :
    ModInverse g n = none ↔ Int.gcd g n ≠ 1 := by
  rw [Ne, ← ModInverse_isSome_iff hn]
  cases ModInverse g n <;> simp

/-- What `ModInverse` returns is reduced and is an inverse of the operand. -/
theorem ModInverse_some_spec {g n z : Int} (hn : 0 < n) (h : ModInverse g n = some z) :
    0 ≤ z ∧ z < n ∧ g * z ≡ 1 [ZMOD n] := by
  unfold ModInverse at h
  simp only [not_lt.mpr hn.le, if_false] at h
  have hmod := reduced_modEq g n
  generalize (if g < 0 then g % n else g) = r at h hmod
  by_cases hg : Int.gcd r n = 1
  · rw [if_pos hg] at h
    injection h with h
    subst h
    refine ⟨Int.emod_nonneg _ hn.ne', Int.emod_lt_of_pos _ hn, ?_⟩
    have hb := Int.gcd_eq_gcd_ab r n
    rw [hg] at hb
    have h1 : g * (Int.gcdA r n % n) ≡ r * Int.gcdA r n [ZMOD n] :=
      Int.ModEq.mul hmod.symm (Int.mod_modEq _ _)
    refine h1.trans ?_
    rw [Int.modEq_iff_dvd]
    exact ⟨Int.gcdB r n, by push_cast at hb; linarith⟩
  · rw [if_neg hg] at h
    exact absurd h (by simp)

/-- An operand with an inverse modulo `n` is coprime to `n`. -/
theorem gcd_eq_one_of_mul_modEq_one {g n z : Int} (h : g * z ≡ 1 [ZMOD n]) :
    Int.gcd g n = 1 := by
  rw [Int.gcd_eq_one_iff_coprime]
  obtain ⟨k, hk⟩ := (Int.modEq_iff_dvd.mp h)
  exact ⟨z, k, by linarith⟩

theorem exists_inverse_iff_gcd {g n : Int} :
    (∃ z, g * z ≡ 1 [ZMOD n]) ↔ Int.gcd g n = 1 := by
  constructor
  · rintro ⟨z, hz⟩
    exact gcd_eq_one_of_mul_modEq_one hz
  · intro h
    rw [Int.gcd_eq_one_iff_coprime] at h
    obtain ⟨a, b, hab⟩ := h
    refine ⟨a, ?_⟩
    rw [Int.modEq_iff_dvd]
    exact ⟨b, by linarith⟩

/-- Inverses modulo `n` are unique up to congruence. -/
theorem inverse_unique {g n z w : Int} (hz : g * z ≡ 1 [ZMOD n]) (hw : g * w ≡ 1 [ZMOD n]) :
    z ≡ w [ZMOD n] := by
  have h1 : z * (g * w) ≡ z * 1 [ZMOD n] := Int.ModEq.mul_left z hw
  have h2 : w * (g * z) ≡ w * 1 [ZMOD n] := Int.ModEq.mul_left w hz
  have h3 : z * (g * w) = w * (g * z) := by ring
  rw [h3] at h1
  simpa using h1.symm.trans h2

/-- The value of `ModInverse` is the reduced inverse: any reduced inverse is it. -/
theorem ModInverse_eq_some_of_inverse {g n z : Int} (hn : 0 < n) (hz0 : 0 ≤ z) (hzn : z < n)
    (hz : g * z ≡ 1 [ZMOD n]) : ModInverse g n = some z := by
  have hs : (ModInverse g n).isSome = true :=
    (ModInverse_isSome_iff hn).mpr (gcd_eq_one_of_mul_modEq_one hz)
  obtain ⟨w, hw⟩ := Option.isSome_iff_exists.mp hs
  obtain ⟨hw0, hwn, hwi⟩ := ModInverse_some_spec hn hw
  have := inverse_unique hz hwi
  unfold Int.ModEq at this
  rw [Int.emod_eq_of_lt hz0 hzn, Int.emod_eq_of_lt hw0 hwn] at this
  rw [hw, this]
/-! ## The general case of `Double` and `Add`, for any curve record with a positive modulus -/

/-- The general case of `Double`: with an inverse `z` of `2*y1` at hand the method
returns the reduced coordinates computed from the slope. -/
theorem Double_general (curve : Curve25519Params) (x1 y1 : Int) (hP : 0 < curve.ep.P)
    (hne : ¬ (x1 = 0 ∧ y1 = 0)) (hinv : ∃ z : Int, 2 * y1 * z ≡ 1 [ZMOD curve.ep.P]) :
    ∃ x3 y3 L : Int, Double curve x1 y1 = some (x3, y3) ∧
      (0 ≤ x3 ∧ x3 < curve.ep.P) ∧ (0 ≤ y3 ∧ y3 < curve.ep.P) ∧
      2 * y1 * L ≡ 3 * x1 ^ 2 + 2 * curve.ep.B * x1 + 1 [ZMOD curve.ep.P] ∧
      x3 ≡ L ^ 2 - curve.ep.B - 2 * x1 [ZMOD curve.ep.P] ∧
      y3 ≡ (x1 - x3) * L - y1 [ZMOD curve.ep.P] := by
  have hg : Int.gcd (2 * 1 * y1) curve.ep.P = 1 := by
    obtain ⟨z, hz⟩ := hinv
    exact gcd_eq_one_of_mul_modEq_one (z := z) (by simpa using hz)
  obtain ⟨w, hw⟩ := Option.isSome_iff_exists.mp ((ModInverse_isSome_iff hP).mpr hg)
  obtain ⟨-, -, hwi⟩ := ModInverse_some_spec hP hw
  refine ⟨(((3 * x1 + 2 * curve.ep.B) * x1 + 1) * w * (((3 * x1 + 2 * curve.ep.B) * x1 + 1) * w)
        * 1 - curve.ep.B - x1 - x1) % curve.ep.P,
    ((x1 - (((3 * x1 + 2 * curve.ep.B) * x1 + 1) * w * (((3 * x1 + 2 * curve.ep.B) * x1 + 1) * w)
        * 1 - curve.ep.B - x1 - x1)) * (((3 * x1 + 2 * curve.ep.B) * x1 + 1) * w) - y1)
        % curve.ep.P,
    ((3 * x1 + 2 * curve.ep.B) * x1 + 1) * w, ?_, ?_, ?_, ?_, ?_, ?_⟩
  · simp only [Double, if_neg hne, hw]
  · exact ⟨Int.emod_nonneg _ hP.ne', Int.emod_lt_of_pos _ hP⟩
  · exact ⟨Int.emod_nonneg _ hP.ne', Int.emod_lt_of_pos _ hP⟩
  · have h := Int.ModEq.mul_left ((3 * x1 + 2 * curve.ep.B) * x1 + 1) hwi
    have e1 : ((3 * x1 + 2 * curve.ep.B) * x1 + 1) * (2 * 1 * y1 * w)
        = 2 * y1 * (((3 * x1 + 2 * curve.ep.B) * x1 + 1) * w) := by ring
    have e2 : ((3 * x1 + 2 * curve.ep.B) * x1 + 1) * 1
        = 3 * x1 ^ 2 + 2 * curve.ep.B * x1 + 1 := by ring
    rwa [e1, e2] at h
  · refine (Int.mod_modEq _ _).trans ?_
    have e : ((3 * x1 + 2 * curve.ep.B) * x1 + 1) * w * (((3 * x1 + 2 * curve.ep.B) * x1 + 1) * w)
          * 1 - curve.ep.B - x1 - x1
        = (((3 * x1 + 2 * curve.ep.B) * x1 + 1) * w) ^ 2 - curve.ep.B - 2 * x1 := by ring
    rw [e]
  · refine (Int.mod_modEq _ _).trans ?_
    exact Int.ModEq.sub
      (Int.ModEq.mul (Int.ModEq.sub (Int.ModEq.refl x1) (Int.mod_modEq _ _).symm)
        (Int.ModEq.refl _))
      (Int.ModEq.refl y1)

/-- The general case of `Add`: with an inverse of `x2 - x1` at hand the method
returns the reduced coordinates computed from the slope. -/
theorem Add_general (curve : Curve25519Params) (x1 y1 x2 y2 : Int) (hP : 0 < curve.ep.P)
    (h1 : ¬ (x1 = 0 ∨ y1 = 0)) (h2 : ¬ (x2 = 0 ∨ y2 = 0))
    (hinv : ∃ z : Int, (x2 - x1) * z ≡ 1 [ZMOD curve.ep.P]) :
    ∃ x3 y3 L : Int, Add curve x1 y1 x2 y2 = some (x3, y3) ∧
      (0 ≤ x3 ∧ x3 < curve.ep.P) ∧ (0 ≤ y3 ∧ y3 < curve.ep.P) ∧
      (x2 - x1) * L ≡ y2 - y1 [ZMOD curve.ep.P] ∧
      x3 ≡ L ^ 2 - curve.ep.B - x1 - x2 [ZMOD curve.ep.P] ∧
      y3 ≡ (x1 - x3) * L - y1 [ZMOD curve.ep.P] := by
  have hg : Int.gcd (x2 - x1) curve.ep.P = 1 := by
    obtain ⟨z, hz⟩ := hinv
    exact gcd_eq_one_of_mul_modEq_one hz
  obtain ⟨w, hw⟩ := Option.isSome_iff_exists.mp ((ModInverse_isSome_iff hP).mpr hg)
  obtain ⟨-, -, hwi⟩ := ModInverse_some_spec hP hw
  refine ⟨((y2 - y1) * w * ((y2 - y1) * w) * 1 - curve.ep.B - x1 - x2) % curve.ep.P,
    ((x1 - ((y2 - y1) * w * ((y2 - y1) * w) * 1 - curve.ep.B - x1 - x2)) * ((y2 - y1) * w) - y1)
      % curve.ep.P,
    (y2 - y1) * w, ?_, ?_, ?_, ?_, ?_, ?_⟩
  · simp only [Add, if_neg h1, if_neg h2, hw]
  · exact ⟨Int.emod_nonneg _ hP.ne', Int.emod_lt_of_pos _ hP⟩
  · exact ⟨Int.emod_nonneg _ hP.ne', Int.emod_lt_of_pos _ hP⟩
  · have h := Int.ModEq.mul_left (y2 - y1) hwi
    have e1 : (y2 - y1) * ((x2 - x1) * w) = (x2 - x1) * ((y2 - y1) * w) := by ring
    rwa [e1, mul_one] at h
  · refine (Int.mod_modEq _ _).trans ?_
    have e : (y2 - y1) * w * ((y2 - y1) * w) * 1 - curve.ep.B - x1 - x2
        = ((y2 - y1) * w) ^ 2 - curve.ep.B - x1 - x2 := by ring
    rw [e]
  · refine (Int.mod_modEq _ _).trans ?_
    exact Int.ModEq.sub
      (Int.ModEq.mul (Int.ModEq.sub (Int.ModEq.refl x1) (Int.mod_modEq _ _).symm)
        (Int.ModEq.refl _))
      (Int.ModEq.refl y1)

/-- A non-invertible `2*y1` makes `Double` fail outside the identity short-circuit. -/
theorem Double_eq_none (curve : Curve25519Params) (x1 y1 : Int) (hP : 0 < curve.ep.P)
    (hne : ¬ (x1 = 0 ∧ y1 = 0)) (hg : Int.gcd (2 * y1) curve.ep.P ≠ 1) :
    Double curve x1 y1 = none := by
  have hw : ModInverse (2 * 1 * y1) curve.ep.P = none := by
    rw [ModInverse_eq_none_iff hP]
    simpa using hg
  simp only [Double, if_neg hne, hw]

/-- A non-invertible `x2 - x1` makes `Add` fail outside the identity short-circuits. -/
theorem Add_eq_none (curve : Curve25519Params) (x1 y1 x2 y2 : Int) (hP : 0 < curve.ep.P)
    (h1 : ¬ (x1 = 0 ∨ y1 = 0)) (h2 : ¬ (x2 = 0 ∨ y2 = 0))
    (hg : Int.gcd (x2 - x1) curve.ep.P ≠ 1) :
    Add curve x1 y1 x2 y2 = none := by
  have hw : ModInverse (x2 - x1) curve.ep.P = none := (ModInverse_eq_none_iff hP).mpr hg
  simp only [Add, if_neg h1, if_neg h2, hw]

/-- Two slopes for the same invertible denominator are congruent. -/
theorem slope_unique {d n c L M z : Int} (hz : d * z ≡ 1 [ZMOD n])
    (hL : d * L ≡ c [ZMOD n]) (hM : d * M ≡ c [ZMOD n]) : L ≡ M [ZMOD n] := by
  have e : ∀ K : Int, z * (d * K) = (d * z) * K := fun K => by ring
  have hL2 : (d * z) * L ≡ (d * z) * M [ZMOD n] := by
    rw [← e, ← e]
    exact Int.ModEq.mul_left z (hL.trans hM.symm)
  have hone : ∀ K : Int, (d * z) * K ≡ K [ZMOD n] := fun K => by
    simpa using Int.ModEq.mul_right K hz
  exact (hone L).symm.trans (hL2.trans (hone M))

/-! ## The curve law in a commutative ring -/

/-- The tangent construction: the third intersection of the tangent line at a curve
point, reflected, is a curve point. -/
theorem tangent_on_curve {R : Type*} [CommRing R] (A X1 Y1 L X3 Y3 : R)
    (h1 : Y1 ^ 2 = X1 ^ 3 + A * X1 ^ 2 + X1)
    (h2 : 2 * Y1 * L = 3 * X1 ^ 2 + 2 * A * X1 + 1)
    (h3 : X3 = L ^ 2 - A - 2 * X1) (h4 : Y3 = (X1 - X3) * L - Y1) :
    Y3 ^ 2 = X3 ^ 3 + A * X3 ^ 2 + X3 := by
  subst h4 h3
  linear_combination h1 + (L ^ 2 - A - 3 * X1) * h2

/-- The chord construction: the third intersection of the line through two curve
points with distinct invertible abscissa difference, reflected, is a curve point. -/
theorem chord_on_curve {R : Type*} [CommRing R] (A X1 Y1 X2 Y2 Z L X3 Y3 : R)
    (h1 : Y1 ^ 2 = X1 ^ 3 + A * X1 ^ 2 + X1)
    (h2 : Y2 ^ 2 = X2 ^ 3 + A * X2 ^ 2 + X2)
    (hZ : (X2 - X1) * Z = 1) (hL : (X2 - X1) * L = Y2 - Y1)
    (h3 : X3 = L ^ 2 - A - X1 - X2) (h4 : Y3 = (X1 - X3) * L - Y1) :
    Y3 ^ 2 = X3 ^ 3 + A * X3 ^ 2 + X3 := by
  subst h4 h3
  have key : (X2 - X1) * (((X1 - (L ^ 2 - A - X1 - X2)) * L - Y1) ^ 2
      - ((L ^ 2 - A - X1 - X2) ^ 3 + A * (L ^ 2 - A - X1 - X2) ^ 2 + (L ^ 2 - A - X1 - X2))) = 0 := by
    linear_combination (X2 - X1 - ((L ^ 2 - A - X1 - X2) - X1)) * h1
      + ((L ^ 2 - A - X1 - X2) - X1) * h2
      + ((L ^ 2 - A - X1 - X2) - X1) * (L * (X2 - X1) + Y1 + Y2) * hL
  have h := congrArg (fun t => Z * t) key
  simp only [mul_zero] at h
  rw [← mul_assoc, mul_comm Z, hZ, one_mul] at h
  exact sub_eq_zero.mp h

/-- Congruence modulo a non-negative integer is equality in the residue ring. -/
theorem modEq_iff_cast {a b n : Int} (hn : 0 ≤ n) :
    a ≡ b [ZMOD n] ↔ ((a : ZMod n.toNat) = (b : ZMod n.toNat)) := by
  rw [ZMod.intCast_eq_intCast_iff, Int.toNat_of_nonneg hn]
/-- The method `IsOnCurve` decides the curve congruence, for any curve record. -/
theorem IsOnCurve_iff (curve : Curve25519Params) (x y : Int) :
    IsOnCurve curve x y = true ↔
      y ^ 2 ≡ x ^ 3 + curve.ep.B * x ^ 2 + x [ZMOD curve.ep.P] := by
  unfold IsOnCurve Int.ModEq
  simp only [decide_eq_true_eq]
  have e1 : x * x * curve.ep.B + x * x * x + x = x ^ 3 + curve.ep.B * x ^ 2 + x := by ring
  have e2 : y * y = y ^ 2 := by ring
  rw [e1, e2]
  exact eq_comm

/-- A doubled curve point is a curve point, for any curve record with a positive modulus. -/
theorem Double_on_curve (curve : Curve25519Params) (x1 y1 : Int) (hP : 0 < curve.ep.P)
    (hne : ¬ (x1 = 0 ∧ y1 = 0)) (hon : IsOnCurve curve x1 y1 = true)
    (hinv : ∃ z : Int, 2 * y1 * z ≡ 1 [ZMOD curve.ep.P]) :
    ∃ x3 y3 : Int, Double curve x1 y1 = some (x3, y3) ∧ IsOnCurve curve x3 y3 = true := by
  obtain ⟨x3, y3, L, hD, -, -, hL, hx, hy⟩ := Double_general curve x1 y1 hP hne hinv
  refine ⟨x3, y3, hD, ?_⟩
  rw [IsOnCurve_iff] at hon ⊢
  rw [modEq_iff_cast hP.le] at hon hL hx hy ⊢
  push_cast at hon hL hx hy ⊢
  exact tangent_on_curve _ _ _ _ _ _ hon hL hx hy

/-- The sum of two curve points with invertible abscissa difference is a curve point,
for any curve record with a positive modulus. -/
theorem Add_on_curve (curve : Curve25519Params) (x1 y1 x2 y2 : Int) (hP : 0 < curve.ep.P)
    (h1 : ¬ (x1 = 0 ∨ y1 = 0)) (h2 : ¬ (x2 = 0 ∨ y2 = 0))
    (hon1 : IsOnCurve curve x1 y1 = true) (hon2 : IsOnCurve curve x2 y2 = true)
    (hinv : ∃ z : Int, (x2 - x1) * z ≡ 1 [ZMOD curve.ep.P]) :
    ∃ x3 y3 : Int, Add curve x1 y1 x2 y2 = some (x3, y3) ∧ IsOnCurve curve x3 y3 = true := by
  obtain ⟨x3, y3, L, hA, -, -, hL, hx, hy⟩ := Add_general curve x1 y1 x2 y2 hP h1 h2 hinv
  obtain ⟨z, hz⟩ := hinv
  refine ⟨x3, y3, hA, ?_⟩
  rw [IsOnCurve_iff] at hon1 hon2 ⊢
  rw [modEq_iff_cast hP.le] at hon1 hon2 hz hL hx hy ⊢
  push_cast at hon1 hon2 hz hL hx hy ⊢
  exact chord_on_curve _ _ _ _ _ _ _ _ _ hon1 hon2 hz hL hx hy

theorem curveP_pos : 0 < CurveP25519.ep.P := by decide

/-- The general case of `Double` evaluated with a known reduced inverse of `2*y1`. -/
theorem Double_eq_of_inverse (curve : Curve25519Params) (x1 y1 z : Int) (hP : 0 < curve.ep.P)
    (hne : ¬ (x1 = 0 ∧ y1 = 0)) (hz0 : 0 ≤ z) (hzn : z < curve.ep.P)
    (hz : 2 * 1 * y1 * z ≡ 1 [ZMOD curve.ep.P]) :
    Double curve x1 y1 = some
      ((((3 * x1 + 2 * curve.ep.B) * x1 + 1) * z * (((3 * x1 + 2 * curve.ep.B) * x1 + 1) * z)
          * 1 - curve.ep.B - x1 - x1) % curve.ep.P,
       ((x1 - (((3 * x1 + 2 * curve.ep.B) * x1 + 1) * z
          * (((3 * x1 + 2 * curve.ep.B) * x1 + 1) * z) * 1 - curve.ep.B - x1 - x1))
          * (((3 * x1 + 2 * curve.ep.B) * x1 + 1) * z) - y1) % curve.ep.P) := by
  have hw := ModInverse_eq_some_of_inverse hP hz0 hzn hz
  simp only [Double, if_neg hne, hw]

/-- The generator doubled, as the code computes it. -/
theorem Double_generator :
    Double CurveP25519 9
        14781619447589544791020593568409986887264606134616475288964881837755586237401
      = some (14847277145635483483963372537557091634710985132825781088887140890597596352251,
          8914613091229147831277935472048643066880067899251840418855181793938505594211) :=
  (Double_eq_of_inverse CurveP25519 9
    14781619447589544791020593568409986887264606134616475288964881837755586237401
    47153247641976783235043978286008082807854094794263057259831138242664083745149
    curveP_pos (by decide) (by decide) (by decide) (by decide)).trans (by decide)

/-- The generator doubled twice, as the code computes it. -/
theorem Double_generator_twice :
    Double CurveP25519
        14847277145635483483963372537557091634710985132825781088887140890597596352251
        8914613091229147831277935472048643066880067899251840418855181793938505594211
      = some (55094879196667521951171181671895976763495004283458921215716618814842818532335,
          3326902261410125624348978312040953107588569168976051259550493007501242276912) :=
  (Double_eq_of_inverse CurveP25519
    14847277145635483483963372537557091634710985132825781088887140890597596352251
    8914613091229147831277935472048643066880067899251840418855181793938505594211
    46906233348682656759794533505863033390528572181494947610855519945129079586367
    curveP_pos (by decide) (by decide) (by decide) (by decide)).trans (by decide)

/-- The point the test `TestDouble` expects after one doubling, doubled by the code. -/
theorem Double_test_vector :
    Double CurveP25519
        6784692728748995825599862402855483522016546426567910438357042338075027826575
        14982863109320699114866362806305859444453206692004135551371801829915686450358
      = some (45467996409782533278255472765002862408656271213829398248662642952520918808696,
          54816309286563492460129271965901168908456974962617229397492143978630507666373) :=
  (Double_eq_of_inverse CurveP25519
    6784692728748995825599862402855483522016546426567910438357042338075027826575
    14982863109320699114866362806305859444453206692004135551371801829915686450358
    33016612269050339506357466387203848969139664702447670722173726352066428118980
    curveP_pos (by decide) (by decide) (by decide) (by decide)).trans (by decide)

/-! ## Primality of the modulus -/

theorem powModAux_modEq (m : ℕ) : ∀ (fuel b e acc : ℕ), e < 2 ^ fuel →
    powModAux m fuel b e acc ≡ acc * b ^ e [MOD m] := by
  intro fuel
  induction fuel with
  | zero =>
    intro b e acc he
    have : e = 0 := by simpa using he
    subst this
    simp [powModAux, Nat.ModEq]
  | succ k ih =>
    intro b e acc he
    unfold powModAux
    split
    · rename_i h0
      subst h0
      simp [Nat.ModEq]
    · have hlt : e / 2 < 2 ^ k := by
        rw [Nat.div_lt_iff_lt_mul (by norm_num)]
        rw [pow_succ] at he
        exact he
      refine (ih _ _ _ hlt).trans ?_
      have hb : (b * b % m) ^ (e / 2) ≡ (b * b) ^ (e / 2) [MOD m] :=
        (Nat.mod_modEq _ _).pow _
      have hsplit : e = 2 * (e / 2) + e % 2 := (Nat.div_add_mod e 2).symm
      split
      · rename_i h1
        have e1 : acc * b ^ e = acc * b * (b * b) ^ (e / 2) := by
          conv_lhs => rw [hsplit, h1]
          rw [pow_succ, pow_mul, ← pow_two]
          ring
        rw [e1]
        exact (Nat.mod_modEq _ _).mul hb
      · rename_i h1
        have h0 : e % 2 = 0 := by omega
        have e1 : acc * b ^ e = acc * (b * b) ^ (e / 2) := by
          conv_lhs => rw [hsplit, h0]
          rw [add_zero, pow_mul, ← pow_two]
        rw [e1]
        exact (Nat.ModEq.refl _).mul hb

theorem powMod_eq (a e m : ℕ) : powMod a e m = a ^ e % m := by
  unfold powMod
  have h : powModAux m e (a % m) e 1 ≡ a ^ e [MOD m] := by
    refine (powModAux_modEq m e _ _ _ (Nat.lt_two_pow e)).trans ?_
    simpa using (Nat.mod_modEq a m).pow e
  exact h

/-- Lucas' primality test run on a factorisation of `p - 1` into prime powers. -/
theorem prime_of_lucas_certificate (p a : ℕ) (fs : List (ℕ × ℕ)) (hp : 1 < p)
    (hfs : ∀ f ∈ fs, Nat.Prime f.1)
    (hprod : (fs.map (fun f => f.1 ^ f.2)).prod = p - 1)
    (hone : powMod a (p - 1) p = 1)
    (hq : ∀ f ∈ fs, powMod a ((p - 1) / f.1) p ≠ 1) : Nat.Prime p := by
  have hcast : ∀ e : ℕ, (((a : ZMod p) ^ e = 1) ↔ powMod a e p = 1) := by
    intro e
    rw [powMod_eq a e p, ← Nat.cast_pow, ← Nat.cast_one, ZMod.natCast_eq_natCast_iff',
      Nat.mod_eq_of_lt hp]
  refine lucas_primality p (a : ZMod p) ((hcast _).mpr hone) ?_
  intro q hqp hqd
  rw [← hprod] at hqd
  obtain ⟨x, hx, hqx⟩ := (Prime.dvd_prod_iff (Nat.prime_iff.mp hqp)).mp hqd
  obtain ⟨f, hf, rfl⟩ := List.mem_map.mp hx
  have hqf : q = f.1 :=
    (Nat.prime_dvd_prime_iff_eq hqp (hfs f hf)).mp (hqp.dvd_of_dvd_pow hqx)
  subst hqf
  exact fun h => hq f hf ((hcast _).mp h)

set_option maxRecDepth 100000 in
/-- A prime of the certificate chain (Lucas test with base 5). -/
theorem prime_10digits :
    Nat.Prime 2773320623 :=
  prime_of_lucas_certificate 2773320623 5
    [(2, 1), (2437, 1), (569003, 1)]
    (by decide)
    (by
      intro f hf
      simp only [List.mem_cons, List.mem_singleton, List.not_mem_nil, or_false] at hf
      rcases hf with rfl | rfl | rfl
      · norm_num
      · norm_num
      · norm_num)
    (by decide) (by decide) (by decide)

set_option maxRecDepth 100000 in
/-- A prime of the certificate chain (Lucas test with base 7). -/
theorem prime_11digits :
    Nat.Prime 72106336199 :=
  prime_of_lucas_certificate 72106336199 7
    [(2, 1), (13, 1), (2773320623, 1)]
    (by decide)
    (by
      intro f hf
      simp only [List.mem_cons, List.mem_singleton, List.not_mem_nil, or_false] at hf
      rcases hf with rfl | rfl | rfl
      · norm_num
      · norm_num
      · exact prime_10digits)
    (by decide) (by decide) (by decide)

set_option maxRecDepth 100000 in
/-- A prime of the certificate chain (Lucas test with base 2). -/
theorem prime_16digits :
    Nat.Prime 1919519569386763 :=
  prime_of_lucas_certificate 1919519569386763 2
    [(2, 1), (3, 1), (7, 1), (19, 1), (47, 2), (127, 1), (8574133, 1)]
    (by decide)
    (by
      intro f hf
      simp only [List.mem_cons, List.mem_singleton, List.not_mem_nil, or_false] at hf
      rcases hf with rfl | rfl | rfl | rfl | rfl | rfl | rfl
      · norm_num
      · norm_num
      · norm_num
      · norm_num
      · norm_num
      · norm_num
      · norm_num)
    (by decide) (by decide) (by decide)

set_option maxRecDepth 100000 in
/-- A prime of the certificate chain (Lucas test with base 10). -/
theorem prime_17digits :
    Nat.Prime 31757755568855353 :=
  prime_of_lucas_certificate 31757755568855353 10
    [(2, 3), (3, 1), (31, 1), (107, 1), (223, 1), (4153, 1), (430751, 1)]
    (by decide)
    (by
      intro f hf
      simp only [List.mem_cons, List.mem_singleton, List.not_mem_nil, or_false] at hf
      rcases hf with rfl | rfl | rfl | rfl | rfl | rfl | rfl
      · norm_num
      · norm_num
      · norm_num
      · norm_num
      · norm_num
      · norm_num
      · norm_num)
    (by decide) (by decide) (by decide)

set_option maxRecDepth 100000 in
/-- A prime of the certificate chain (Lucas test with base 7). -/
theorem prime_35digits :
    Nat.Prime 75445702479781427272750846543864801 :=
  prime_of_lucas_certificate 75445702479781427272750846543864801 7
    [(2, 5), (3, 2), (5, 2), (75707, 1), (72106336199, 1), (1919519569386763, 1)]
    (by decide)
    (by
      intro f hf
      simp only [List.mem_cons, List.mem_singleton, List.not_mem_nil, or_false] at hf
      rcases hf with rfl | rfl | rfl | rfl | rfl | rfl
      · norm_num
      · norm_num
      · norm_num
      · norm_num
      · exact prime_11digits
      · exact prime_16digits)
    (by decide) (by decide) (by decide)

set_option maxRecDepth 100000 in
/-- A prime of the certificate chain (Lucas test with base 2). -/
theorem prime_71digits :
    Nat.Prime 74058212732561358302231226437062788676166966415465897661863160754340907 :=
  prime_of_lucas_certificate 74058212732561358302231226437062788676166966415465897661863160754340907 2
    [(2, 1), (3, 1), (353, 1), (57467, 1), (132049, 1), (1923133, 1), (31757755568855353, 1), (75445702479781427272750846543864801, 1)]
    (by decide)
    (by
      intro f hf
      simp only [List.mem_cons, List.mem_singleton, List.not_mem_nil, or_false] at hf
      rcases hf with rfl | rfl | rfl | rfl | rfl | rfl | rfl | rfl
      · norm_num
      · norm_num
      · norm_num
      · norm_num
      · norm_num
      · norm_num
      · exact prime_17digits
      · exact prime_35digits)
    (by decide) (by decide) (by decide)

set_option maxRecDepth 100000 in
/-- The modulus `2^255 - 19` is prime (Lucas test with base 2). -/
theorem prime_modulus :
    Nat.Prime 57896044618658097711785492504343953926634992332820282019728792003956564819949 :=
  prime_of_lucas_certificate 57896044618658097711785492504343953926634992332820282019728792003956564819949 2
    [(2, 2), (3, 1), (65147, 1), (74058212732561358302231226437062788676166966415465897661863160754340907, 1)]
    (by decide)
    (by
      intro f hf
      simp only [List.mem_cons, List.mem_singleton, List.not_mem_nil, or_false] at hf
      rcases hf with rfl | rfl | rfl | rfl
      · norm_num
      · norm_num
      · norm_num
      · exact prime_71digits)
    (by decide) (by decide) (by decide)

/-! ## Invertibility modulo the prime `P` -/

theorem curveP_eq_cast :
    CurveP25519.ep.P
      = ((57896044618658097711785492504343953926634992332820282019728792003956564819949 : ℕ) : ℤ) := by
  decide

/-- A multiple of the modulus has no inverse. -/
theorem gcd_ne_one_of_modEq_zero {d n : Int} (hn : 1 < n) (hd : d ≡ 0 [ZMOD n]) :
    Int.gcd d n ≠ 1 := by
  intro hg
  obtain ⟨z, hz⟩ := exists_inverse_iff_gcd.mpr hg
  have h0 : d * z ≡ 0 [ZMOD n] := by simpa using hd.mul_right z
  have h1 : (0 : Int) ≡ 1 [ZMOD n] := h0.symm.trans hz
  have h2 : n ∣ 1 := by simpa using Int.modEq_iff_dvd.mp h1
  have h3 : n ≤ 1 := Int.le_of_dvd one_pos h2
  omega

/-- Modulo a prime every non-multiple has an inverse. -/
theorem gcd_eq_one_of_prime {d : Int} {p : ℕ} (hp : p.Prime) (hd : ¬ d ≡ 0 [ZMOD (p : ℤ)]) :
    Int.gcd d (p : ℤ) = 1 := by
  have h1 : ¬ p ∣ d.natAbs := by
    intro h
    exact hd ((Int.modEq_zero_iff_dvd).mpr (Int.natCast_dvd.mpr h))
  have h2 : Nat.Coprime p d.natAbs := (Nat.Prime.coprime_iff_not_dvd hp).mpr h1
  rw [Int.gcd_eq_natAbs, Int.natAbs_ofNat]
  exact h2.symm

/-- Modulo `P` invertibility is the same as being non-zero. -/
theorem gcd_curveP_eq_one_iff (d : Int) :
    Int.gcd d CurveP25519.ep.P = 1 ↔ ¬ d ≡ 0 [ZMOD CurveP25519.ep.P] := by
  constructor
  · intro hg hd
    exact gcd_ne_one_of_modEq_zero (by decide) hd hg
  · intro hd
    rw [curveP_eq_cast] at hd ⊢
    exact gcd_eq_one_of_prime prime_modulus hd

/-- Reduced values that are congruent are equal. -/
theorem eq_of_modEq_of_reduced {a b n : Int} (ha : 0 ≤ a ∧ a < n) (hb : 0 ≤ b ∧ b < n)
    (h : a ≡ b [ZMOD n]) : a = b := by
  unfold Int.ModEq at h
  rwa [Int.emod_eq_of_lt ha.1 ha.2, Int.emod_eq_of_lt hb.1 hb.2] at h

/-- The general case of `Add` does not depend on the order of the operands, for any
curve record with a positive modulus. -/
theorem Add_comm_general (curve : Curve25519Params) (x1 y1 x2 y2 : Int) (hP : 0 < curve.ep.P)
    (h1 : ¬ (x1 = 0 ∨ y1 = 0)) (h2 : ¬ (x2 = 0 ∨ y2 = 0)) :
    Add curve x1 y1 x2 y2 = Add curve x2 y2 x1 y1 := by
  have hneg : x1 - x2 = -(x2 - x1) := by ring
  by_cases hg : Int.gcd (x2 - x1) curve.ep.P = 1
  · obtain ⟨z, hz⟩ := exists_inverse_iff_gcd.mpr hg
    have hz' : (x1 - x2) * (-z) ≡ 1 [ZMOD curve.ep.P] := by
      have e : (x1 - x2) * (-z) = (x2 - x1) * z := by ring
      rw [e]
      exact hz
    obtain ⟨x3, y3, L, hA, hxb, hyb, hL, hx, hy⟩ :=
      Add_general curve x1 y1 x2 y2 hP h1 h2 ⟨z, hz⟩
    obtain ⟨x3', y3', L', hA', hxb', hyb', hL', hx', hy'⟩ :=
      Add_general curve x2 y2 x1 y1 hP h2 h1 ⟨-z, hz'⟩
    have hL2 : (x2 - x1) * L' ≡ y2 - y1 [ZMOD curve.ep.P] := by
      have e1 : (x2 - x1) * L' = -((x1 - x2) * L') := by ring
      have e2 : y2 - y1 = -(y1 - y2) := by ring
      rw [e1, e2]
      exact hL'.neg
    have hLL : L ≡ L' [ZMOD curve.ep.P] := slope_unique hz hL hL2
    have hxx : x3 = x3' := by
      refine eq_of_modEq_of_reduced hxb hxb' (hx.trans (Int.ModEq.trans ?_ hx'.symm))
      rw [modEq_iff_cast hP.le] at hLL ⊢
      push_cast
      rw [hLL]
      ring
    have hyy : y3 = y3' := by
      refine eq_of_modEq_of_reduced hyb hyb' ?_
      rw [modEq_iff_cast hP.le] at hLL hL hy hy' ⊢
      push_cast at hL hy hy'
      rw [hy, hy', ← hxx, ← hLL]
      linear_combination (-1 : ZMod curve.ep.P.toNat) * hL
    rw [hA, hA', hxx, hyy]
  · have hg' : Int.gcd (x1 - x2) curve.ep.P ≠ 1 := by
      rw [hneg, Int.neg_gcd]
      exact hg
    rw [Add_eq_none curve x1 y1 x2 y2 hP h1 h2 hg, Add_eq_none curve x2 y2 x1 y1 hP h2 h1 hg']

/-- The pair that `TestDouble` expects after one doubling does not satisfy the curve
equation, and neither does the pair it expects after two. -/
theorem test_vector_not_on_curve :
    IsOnCurve CurveP25519
        6784692728748995825599862402855483522016546426567910438357042338075027826575
        14982863109320699114866362806305859444453206692004135551371801829915686450358 = false ∧
    IsOnCurve CurveP25519
        12318642006867402687195826566147291859634823582672295191656499276835526033145
        9343467693237486709905252998911952863134805995110526737200728195882424275543 = false := by
  decide

/-! ## The claims -/

/-- C1: for all integers `x` and `y`, reduced or not, `IsOnCurve x y` is true exactly
when `y^2 ≡ x^3 + A*x^2 + x (mod P)`, with `A = 486662` the field `B` of `Params()`
and `P = 2^255 - 19` its field `P`. -/
theorem isOnCurve_iff_curve_equation (x y : Int) :
    (IsOnCurve CurveP25519 x y = true ↔
        y ^ 2 ≡ x ^ 3 + (Params CurveP25519).B * x ^ 2 + x [ZMOD (Params CurveP25519).P])
      ∧ (Params CurveP25519).B = 486662 := by
  exact ⟨IsOnCurve_iff CurveP25519 x y, rfl⟩

/-- On the generator `Double` does not return the pair that `TestDouble` expects, and on
that expected pair it does not return the second expected pair either. -/
theorem double_generator_test_vector_counterexample :
    Double CurveP25519 9
        14781619447589544791020593568409986887264606134616475288964881837755586237401
      ≠ some (6784692728748995825599862402855483522016546426567910438357042338075027826575,
          14982863109320699114866362806305859444453206692004135551371801829915686450358) ∧
    Double CurveP25519
        6784692728748995825599862402855483522016546426567910438357042338075027826575
        14982863109320699114866362806305859444453206692004135551371801829915686450358
      ≠ some (12318642006867402687195826566147291859634823582672295191656499276835526033145,
          9343467693237486709905252998911952863134805995110526737200728195882424275543) := by
  rw [Double_generator, Double_test_vector]
  decide

/-- C2, at the failing input of the generator: `Double` returns exactly
`(14847277145635483483963372537557091634710985132825781088887140890597596352251,
8914613091229147831277935472048643066880067899251840418855181793938505594211)`, and
applied to that result it returns exactly
`(55094879196667521951171181671895976763495004283458921215716618814842818532335,
3326902261410125624348978312040953107588569168976051259550493007501242276912)`; these
are not the pairs `(6784…6575, 14982…0358)` and `(12318…3145, 9343…5543)` that the
claim and `TestDouble` name. -/
theorem double_generator_vectors :
    Double CurveP25519 (Params CurveP25519).Gx (Params CurveP25519).Gy
      = some (14847277145635483483963372537557091634710985132825781088887140890597596352251,
          8914613091229147831277935472048643066880067899251840418855181793938505594211) ∧
    Double CurveP25519
        14847277145635483483963372537557091634710985132825781088887140890597596352251
        8914613091229147831277935472048643066880067899251840418855181793938505594211
      = some (55094879196667521951171181671895976763495004283458921215716618814842818532335,
          3326902261410125624348978312040953107588569168976051259550493007501242276912) :=
  ⟨Double_generator, Double_generator_twice⟩

/-- C3: for every point `(x1, y1)` other than `(0, 0)` that satisfies `IsOnCurve` and has
`2*y1` invertible modulo `P`, `Double` returns a point and that point satisfies
`IsOnCurve` again. -/
theorem double_preserves_isOnCurve (x1 y1 : Int) (hne : (x1, y1) ≠ (0, 0))
    (hon : IsOnCurve CurveP25519 x1 y1 = true)
    (hinv : ∃ z : Int, 2 * y1 * z ≡ 1 [ZMOD (Params CurveP25519).P]) :
    ∃ x3 y3 : Int, Double CurveP25519 x1 y1 = some (x3, y3) ∧
      IsOnCurve CurveP25519 x3 y3 = true :=
  Double_on_curve CurveP25519 x1 y1 curveP_pos
    (fun h => hne (by rw [h.1, h.2])) hon hinv

/-- Witness of C3 at the generator. -/
theorem double_preserves_isOnCurve_witness :
    ∃ x3 y3 : Int,
      Double CurveP25519 9
          14781619447589544791020593568409986887264606134616475288964881837755586237401
        = some (x3, y3) ∧
      IsOnCurve CurveP25519 x3 y3 = true :=
  double_preserves_isOnCurve 9
    14781619447589544791020593568409986887264606134616475288964881837755586237401
    (by decide) (by decide)
    ⟨47153247641976783235043978286008082807854094794263057259831138242664083745149, by decide⟩

/-- C4: for all points `(x1, y1)` and `(x2, y2)` that both satisfy `IsOnCurve`, have all
four coordinates non-zero and have `x2 - x1` invertible modulo `P`, `Add` returns a
point and that point satisfies `IsOnCurve` again. -/
theorem add_preserves_isOnCurve (x1 y1 x2 y2 : Int)
    (hx1 : x1 ≠ 0) (hy1 : y1 ≠ 0) (hx2 : x2 ≠ 0) (hy2 : y2 ≠ 0)
    (hon1 : IsOnCurve CurveP25519 x1 y1 = true) (hon2 : IsOnCurve CurveP25519 x2 y2 = true)
    (hinv : ∃ z : Int, (x2 - x1) * z ≡ 1 [ZMOD (Params CurveP25519).P]) :
    ∃ x3 y3 : Int, Add CurveP25519 x1 y1 x2 y2 = some (x3, y3) ∧
      IsOnCurve CurveP25519 x3 y3 = true :=
  Add_on_curve CurveP25519 x1 y1 x2 y2 curveP_pos
    (fun h => h.elim hx1 hy1) (fun h => h.elim hx2 hy2) hon1 hon2 hinv

/-- Witness of C4: the generator and its double. -/
theorem add_preserves_isOnCurve_witness :
    ∃ x3 y3 : Int,
      Add CurveP25519 9
          14781619447589544791020593568409986887264606134616475288964881837755586237401
          14847277145635483483963372537557091634710985132825781088887140890597596352251
          8914613091229147831277935472048643066880067899251840418855181793938505594211
        = some (x3, y3) ∧
      IsOnCurve CurveP25519 x3 y3 = true :=
  add_preserves_isOnCurve 9
    14781619447589544791020593568409986887264606134616475288964881837755586237401
    14847277145635483483963372537557091634710985132825781088887140890597596352251
    8914613091229147831277935472048643066880067899251840418855181793938505594211
    (by decide) (by decide) (by decide) (by decide) (by decide) (by decide)
    ⟨49012752109887710926723122676056144343393022870619800416379879919533651721800, by decide⟩


/-- C5: for every `(x1, y1)` other than `(0, 0)` with `2*y1` invertible modulo `P`,
`Double` returns `(x3, y3)` with `0 ≤ x3 < P` and `0 ≤ y3 < P`; a slope `L` with
`2*y1*L ≡ 3*x1^2 + 2*A*x1 + 1` exists, and for every such slope
`x3 ≡ L^2 - A - 2*x1` and `y3 ≡ (x1 - x3)*L - y1` modulo `P`. -/
theorem double_general_case_formula (x1 y1 : Int) (hne : (x1, y1) ≠ (0, 0))
    (hinv : ∃ z : Int, 2 * y1 * z ≡ 1 [ZMOD (Params CurveP25519).P]) :
    ∃ x3 y3 : Int, Double CurveP25519 x1 y1 = some (x3, y3) ∧
      (0 ≤ x3 ∧ x3 < (Params CurveP25519).P) ∧ (0 ≤ y3 ∧ y3 < (Params CurveP25519).P) ∧
      (∃ L : Int, 2 * y1 * L ≡ 3 * x1 ^ 2 + 2 * (Params CurveP25519).B * x1 + 1
          [ZMOD (Params CurveP25519).P]) ∧
      ∀ L : Int, 2 * y1 * L ≡ 3 * x1 ^ 2 + 2 * (Params CurveP25519).B * x1 + 1
          [ZMOD (Params CurveP25519).P] →
        x3 ≡ L ^ 2 - (Params CurveP25519).B - 2 * x1 [ZMOD (Params CurveP25519).P] ∧
        y3 ≡ (x1 - x3) * L - y1 [ZMOD (Params CurveP25519).P] := by
  obtain ⟨x3, y3, L0, hD, hxb, hyb, hL0, hx, hy⟩ :=
    Double_general CurveP25519 x1 y1 curveP_pos (fun h => hne (by rw [h.1, h.2])) hinv
  obtain ⟨z, hz⟩ := hinv
  refine ⟨x3, y3, hD, hxb, hyb, ⟨L0, hL0⟩, fun L hL => ?_⟩
  have hLL : L0 ≡ L [ZMOD (Params CurveP25519).P] := slope_unique hz hL0 hL
  constructor
  · exact hx.trans (((hLL.pow 2).sub (Int.ModEq.refl _)).sub (Int.ModEq.refl _))
  · exact hy.trans (((Int.ModEq.refl _).mul hLL).sub (Int.ModEq.refl _))

/-- Witness of C5 at the generator. -/
theorem double_general_case_formula_witness :
    ∃ x3 y3 : Int,
      Double CurveP25519 9
          14781619447589544791020593568409986887264606134616475288964881837755586237401
        = some (x3, y3) ∧
      (0 ≤ x3 ∧ x3 < (Params CurveP25519).P) ∧ (0 ≤ y3 ∧ y3 < (Params CurveP25519).P) ∧
      (∃ L : Int,
        2 * 14781619447589544791020593568409986887264606134616475288964881837755586237401 * L
          ≡ 3 * 9 ^ 2 + 2 * (Params CurveP25519).B * 9 + 1 [ZMOD (Params CurveP25519).P]) ∧
      ∀ L : Int,
        2 * 14781619447589544791020593568409986887264606134616475288964881837755586237401 * L
          ≡ 3 * 9 ^ 2 + 2 * (Params CurveP25519).B * 9 + 1 [ZMOD (Params CurveP25519).P] →
        x3 ≡ L ^ 2 - (Params CurveP25519).B - 2 * 9 [ZMOD (Params CurveP25519).P] ∧
        y3 ≡ (9 - x3) * L
            - 14781619447589544791020593568409986887264606134616475288964881837755586237401
          [ZMOD (Params CurveP25519).P] :=
  double_general_case_formula 9
    14781619447589544791020593568409986887264606134616475288964881837755586237401
    (by decide)
    ⟨47153247641976783235043978286008082807854094794263057259831138242664083745149, by decide⟩

/-- C6: for all inputs with `x1, y1, x2, y2` non-zero and `x2 - x1` invertible modulo
`P`, `Add` returns `(x3, y3)` with `0 ≤ x3 < P` and `0 ≤ y3 < P`; a slope `L` with
`(x2 - x1)*L ≡ y2 - y1` exists, and for every such slope `x3 ≡ L^2 - A - x1 - x2`,
`y3 ≡ (x1 - x3)*L - y1`, and `y3` is also congruent to the form
`(2*x1 + x2 + A)*L - L^3 - y1` of the comment above `Add`. -/
theorem add_general_case_formula (x1 y1 x2 y2 : Int)
    (hx1 : x1 ≠ 0) (hy1 : y1 ≠ 0) (hx2 : x2 ≠ 0) (hy2 : y2 ≠ 0)
    (hinv : ∃ z : Int, (x2 - x1) * z ≡ 1 [ZMOD (Params CurveP25519).P]) :
    ∃ x3 y3 : Int, Add CurveP25519 x1 y1 x2 y2 = some (x3, y3) ∧
      (0 ≤ x3 ∧ x3 < (Params CurveP25519).P) ∧ (0 ≤ y3 ∧ y3 < (Params CurveP25519).P) ∧
      (∃ L : Int, (x2 - x1) * L ≡ y2 - y1 [ZMOD (Params CurveP25519).P]) ∧
      ∀ L : Int, (x2 - x1) * L ≡ y2 - y1 [ZMOD (Params CurveP25519).P] →
        x3 ≡ L ^ 2 - (Params CurveP25519).B - x1 - x2 [ZMOD (Params CurveP25519).P] ∧
        y3 ≡ (x1 - x3) * L - y1 [ZMOD (Params CurveP25519).P] ∧
        y3 ≡ (2 * x1 + x2 + (Params CurveP25519).B) * L - L ^ 3 - y1
          [ZMOD (Params CurveP25519).P] := by
  obtain ⟨x3, y3, L0, hA, hxb, hyb, hL0, hx, hy⟩ :=
    Add_general CurveP25519 x1 y1 x2 y2 curveP_pos
      (fun h => h.elim hx1 hy1) (fun h => h.elim hx2 hy2) hinv
  obtain ⟨z, hz⟩ := hinv
  refine ⟨x3, y3, hA, hxb, hyb, ⟨L0, hL0⟩, fun L hL => ?_⟩
  have hLL : L0 ≡ L [ZMOD (Params CurveP25519).P] := slope_unique hz hL0 hL
  have hx3 : x3 ≡ L ^ 2 - (Params CurveP25519).B - x1 - x2 [ZMOD (Params CurveP25519).P] :=
    hx.trans ((((hLL.pow 2).sub (Int.ModEq.refl _)).sub (Int.ModEq.refl _)).sub
      (Int.ModEq.refl _))
  have hy3 : y3 ≡ (x1 - x3) * L - y1 [ZMOD (Params CurveP25519).P] :=
    hy.trans (((Int.ModEq.refl _).mul hLL).sub (Int.ModEq.refl _))
  refine ⟨hx3, hy3, hy3.trans ?_⟩
  have e : (2 * x1 + x2 + (Params CurveP25519).B) * L - L ^ 3 - y1
      = (x1 - (L ^ 2 - (Params CurveP25519).B - x1 - x2)) * L - y1 := by ring
  rw [e]
  exact (((Int.ModEq.refl x1).sub hx3).mul (Int.ModEq.refl L)).sub (Int.ModEq.refl y1)

/-- Witness of C6: the generator and its double. -/
theorem add_general_case_formula_witness :
    ∃ x3 y3 : Int, Add CurveP25519 9
        14781619447589544791020593568409986887264606134616475288964881837755586237401
        14847277145635483483963372537557091634710985132825781088887140890597596352251
        8914613091229147831277935472048643066880067899251840418855181793938505594211
        = some (x3, y3) ∧
      (0 ≤ x3 ∧ x3 < (Params CurveP25519).P) ∧ (0 ≤ y3 ∧ y3 < (Params CurveP25519).P) :=
  let ⟨x3, y3, h, hx, hy, _⟩ := add_general_case_formula 9
    14781619447589544791020593568409986887264606134616475288964881837755586237401
    14847277145635483483963372537557091634710985132825781088887140890597596352251
    8914613091229147831277935472048643066880067899251840418855181793938505594211
    (by decide) (by decide) (by decide) (by decide)
    ⟨49012752109887710926723122676056144343393022870619800416379879919533651721800, by decide⟩
  ⟨x3, y3, h, hx, hy⟩


/-- C7: for all distinct points that satisfy `IsOnCurve` and have all four coordinates
non-zero, `Add` gives the same outcome in either order of the operands: when
`x1 ≡ x2 (mod P)` both orders produce no result, and otherwise both orders return the
same pair of coordinates. -/
theorem add_comm_of_distinct_points (x1 y1 x2 y2 : Int)
    (hx1 : x1 ≠ 0) (hy1 : y1 ≠ 0) (hx2 : x2 ≠ 0) (hy2 : y2 ≠ 0)
    (_hon1 : IsOnCurve CurveP25519 x1 y1 = true) (_hon2 : IsOnCurve CurveP25519 x2 y2 = true)
    (_hdist : (x1, y1) ≠ (x2, y2)) :
    Add CurveP25519 x1 y1 x2 y2 = Add CurveP25519 x2 y2 x1 y1 ∧
    (x1 ≡ x2 [ZMOD (Params CurveP25519).P] →
      Add CurveP25519 x1 y1 x2 y2 = none ∧ Add CurveP25519 x2 y2 x1 y1 = none) ∧
    (¬ x1 ≡ x2 [ZMOD (Params CurveP25519).P] →
      ∃ x3 y3 : Int, Add CurveP25519 x1 y1 x2 y2 = some (x3, y3) ∧
        Add CurveP25519 x2 y2 x1 y1 = some (x3, y3)) := by
  have h1 : ¬ (x1 = 0 ∨ y1 = 0) := fun h => h.elim hx1 hy1
  have h2 : ¬ (x2 = 0 ∨ y2 = 0) := fun h => h.elim hx2 hy2
  have hc := Add_comm_general CurveP25519 x1 y1 x2 y2 curveP_pos h1 h2
  refine ⟨hc, ?_, ?_⟩
  · intro hx
    have hd : x2 - x1 ≡ 0 [ZMOD CurveP25519.ep.P] := by
      simpa using (Int.ModEq.sub hx.symm (Int.ModEq.refl x1))
    have hn := Add_eq_none CurveP25519 x1 y1 x2 y2 curveP_pos h1 h2
      (gcd_ne_one_of_modEq_zero (by decide) hd)
    exact ⟨hn, hc ▸ hn⟩
  · intro hx
    have hd : ¬ x2 - x1 ≡ 0 [ZMOD CurveP25519.ep.P] := by
      intro h
      apply hx
      have := Int.ModEq.add h (Int.ModEq.refl x1)
      simpa using this.symm
    obtain ⟨x3, y3, -, hA, -⟩ := Add_general CurveP25519 x1 y1 x2 y2 curveP_pos h1 h2
      (exists_inverse_iff_gcd.mpr ((gcd_curveP_eq_one_iff _).mpr hd))
    exact ⟨x3, y3, hA, hc ▸ hA⟩

/-- Witness of C7: the generator and its double, in both orders. -/
theorem add_comm_of_distinct_points_witness :
    Add CurveP25519 9
        14781619447589544791020593568409986887264606134616475288964881837755586237401
        14847277145635483483963372537557091634710985132825781088887140890597596352251
        8914613091229147831277935472048643066880067899251840418855181793938505594211
      = Add CurveP25519
        14847277145635483483963372537557091634710985132825781088887140890597596352251
        8914613091229147831277935472048643066880067899251840418855181793938505594211
        9 14781619447589544791020593568409986887264606134616475288964881837755586237401 :=
  (add_comm_of_distinct_points 9
    14781619447589544791020593568409986887264606134616475288964881837755586237401
    14847277145635483483963372537557091634710985132825781088887140890597596352251
    8914613091229147831277935472048643066880067899251840418855181793938505594211
    (by decide) (by decide) (by decide) (by decide) (by decide) (by decide) (by decide)).1

/-- C8: for all inputs with `x1, y1, x2, y2` non-zero and `x1 ≡ x2 (mod P)`, `Add` produces
no result, because `x2 - x1` has no inverse modulo `P`; in particular `Add(P, P)` and
`Add(P, -P)` produce no result, so `Add` computes no doubling and returns no sentinel
for `P + (-P)`. -/
theorem add_fails_on_congruent_abscissas (x1 y1 x2 y2 : Int)
    (hx1 : x1 ≠ 0) (hy1 : y1 ≠ 0) (hx2 : x2 ≠ 0) (hy2 : y2 ≠ 0)
    (hx : x1 ≡ x2 [ZMOD (Params CurveP25519).P]) :
    Add CurveP25519 x1 y1 x2 y2 = none ∧
    ModInverse (x2 - x1) (Params CurveP25519).P = none ∧
    Add CurveP25519 x1 y1 x1 y1 = none ∧
    Add CurveP25519 x1 y1 x1 (-y1) = none := by
  have h1 : ¬ (x1 = 0 ∨ y1 = 0) := fun h => h.elim hx1 hy1
  have h2 : ¬ (x2 = 0 ∨ y2 = 0) := fun h => h.elim hx2 hy2
  have h3 : ¬ (x1 = 0 ∨ -y1 = 0) := fun h => h.elim hx1 (fun h => hy1 (neg_eq_zero.mp h))
  have hd : x2 - x1 ≡ 0 [ZMOD CurveP25519.ep.P] := by
    simpa using (Int.ModEq.sub hx.symm (Int.ModEq.refl x1))
  have hg := gcd_ne_one_of_modEq_zero (by decide) hd
  have hg0 : Int.gcd (x1 - x1) CurveP25519.ep.P ≠ 1 :=
    gcd_ne_one_of_modEq_zero (by decide) (by simp)
  exact ⟨Add_eq_none CurveP25519 x1 y1 x2 y2 curveP_pos h1 h2 hg,
    (ModInverse_eq_none_iff curveP_pos).mpr hg,
    Add_eq_none CurveP25519 x1 y1 x1 y1 curveP_pos h1 h1 hg0,
    Add_eq_none CurveP25519 x1 y1 x1 (-y1) curveP_pos h1 h3 hg0⟩

/-- Witness of C8: the generator added to itself, written once reduced and once with
`P` added to its abscissa. -/
theorem add_fails_on_congruent_abscissas_witness :
    Add CurveP25519 9
        14781619447589544791020593568409986887264606134616475288964881837755586237401
        57896044618658097711785492504343953926634992332820282019728792003956564819958
        14781619447589544791020593568409986887264606134616475288964881837755586237401
      = none :=
  (add_fails_on_congruent_abscissas 9
    14781619447589544791020593568409986887264606134616475288964881837755586237401
    57896044618658097711785492504343953926634992332820282019728792003956564819958
    14781619447589544791020593568409986887264606134616475288964881837755586237401
    (by decide) (by decide) (by decide) (by decide) (by decide)).1

/-- Counterexample to C9: with `x1 = 0` and `y1 = 0` the method `Double` does not fail;
the identity short-circuit returns `(0, 0)`. -/
theorem double_at_y_zero_counterexample :
    Double CurveP25519 0 0 ≠ none ∧ Double CurveP25519 0 0 = some (0, 0) := by
  decide

/-- C9, amended: for every `x1 ≠ 0`, `Double(x1, 0)` fails, because `2*0 = 0` has no
inverse modulo `P`; the one input with `y1 = 0` that returns a point is `(0, 0)`. -/
theorem double_fails_at_y_zero (x1 : Int) (hx : x1 ≠ 0) :
    Double CurveP25519 x1 0 = none ∧
    ModInverse (2 * 0) (Params CurveP25519).P = none ∧
    Double CurveP25519 0 0 = some (0, 0) := by
  have hg : Int.gcd (2 * 0) CurveP25519.ep.P ≠ 1 :=
    gcd_ne_one_of_modEq_zero (by decide) (by simp)
  exact ⟨Double_eq_none CurveP25519 x1 0 curveP_pos (fun h => hx h.1) hg,
    (ModInverse_eq_none_iff curveP_pos).mpr hg, by decide⟩

/-- Witness of the amended C9 at `x1 = 9`. -/
theorem double_fails_at_y_zero_witness : Double CurveP25519 9 0 = none :=
  (double_fails_at_y_zero 9 (by decide)).1

/-- Counterexample to C10: `(0, 0)` is not a right identity on every input;
`Add(5, 0, 0, 0)` takes the first short-circuit and returns `(0, 0)`, not `(5, 0)`. -/
theorem add_right_identity_counterexample :
    Add CurveP25519 5 0 0 0 = some (0, 0) ∧ Add CurveP25519 5 0 0 0 ≠ some (5, 0) := by
  decide

/-- C10, amended: if `x1 = 0` or `y1 = 0` the result of `Add` is exactly `(x2, y2)`;
otherwise, if `x2 = 0` or `y2 = 0`, it is exactly `(x1, y1)`; the coordinates are
returned unchanged, not reduced.  So `(0, 0)` is a left identity on every input and a
right identity on every `(x1, y1)` with both coordinates non-zero or both zero; with
exactly one of `x1, y1` zero, `Add(x1, y1, 0, 0)` is `(0, 0)`. -/
theorem add_identity_short_circuit (x1 y1 x2 y2 : Int) :
    ((x1 = 0 ∨ y1 = 0) → Add CurveP25519 x1 y1 x2 y2 = some (x2, y2)) ∧
    (¬ (x1 = 0 ∨ y1 = 0) → (x2 = 0 ∨ y2 = 0) →
      Add CurveP25519 x1 y1 x2 y2 = some (x1, y1)) ∧
    Add CurveP25519 0 0 x2 y2 = some (x2, y2) ∧
    ((x1 ≠ 0 ∧ y1 ≠ 0) ∨ (x1 = 0 ∧ y1 = 0) → Add CurveP25519 x1 y1 0 0 = some (x1, y1)) ∧
    ((x1 = 0 ∨ y1 = 0) → Add CurveP25519 x1 y1 0 0 = some (0, 0)) := by
  refine ⟨?_, ?_, ?_, ?_, ?_⟩
  · intro h
    simp only [Add, if_pos h]
  · intro h h'
    simp only [Add, if_neg h, if_pos h']
  · simp [Add]
  · rintro (⟨hx, hy⟩ | ⟨hx, hy⟩)
    · have h : ¬ (x1 = 0 ∨ y1 = 0) := fun h => h.elim hx hy
      simp [Add, if_neg h]
    · subst hx hy
      simp [Add]
  · intro h
    simp only [Add, if_pos h]

/-- Witness of the amended C10: an axis point on the left, then on the right, with
coordinates beyond `P` handed back as they are. -/
theorem add_identity_short_circuit_witness :
    Add CurveP25519 0 7
        57896044618658097711785492504343953926634992332820282019728792003956564819950 4
      = some (57896044618658097711785492504343953926634992332820282019728792003956564819950, 4) ∧
    Add CurveP25519
        57896044618658097711785492504343953926634992332820282019728792003956564819950 4 0 7
      = some (57896044618658097711785492504343953926634992332820282019728792003956564819950, 4) :=
  ⟨(add_identity_short_circuit 0 7
      57896044618658097711785492504343953926634992332820282019728792003956564819950 4).1
      (Or.inl rfl),
   (add_identity_short_circuit
      57896044618658097711785492504343953926634992332820282019728792003956564819950 4 0 7).2.1
      (by decide) (Or.inl rfl)⟩


/-! ## The claims on the identity guard of `Double`, the parameters and `IsOnCurve` -/

/-- Outside the identity guard `Double` is its general case, for any curve record. -/
theorem Double_eq_general_case (curve : Curve25519Params) (x1 y1 : Int)
    (h : ¬ (x1 = 0 ∧ y1 = 0)) : Double curve x1 y1 = DoubleGeneralCase curve x1 y1 := by
  simp only [Double, DoubleGeneralCase, if_neg h]

/-- C11: `Double(0, 0)` returns `(0, 0)` unchanged, which the slope computation would
not do (it fails there), and on every `(x1, y1)` with `x1 ≠ 0` or `y1 ≠ 0` the result
of `Double` is the result of the general slope computation. -/
theorem double_short_circuit_only_at_origin :
    Double CurveP25519 0 0 = some (0, 0) ∧
    DoubleGeneralCase CurveP25519 0 0 = none ∧
    ∀ x1 y1 : Int, (x1 ≠ 0 ∨ y1 ≠ 0) →
      Double CurveP25519 x1 y1 = DoubleGeneralCase CurveP25519 x1 y1 := by
  refine ⟨by decide, ?_, ?_⟩
  · have hg : Int.gcd (2 * 1 * 0) CurveP25519.ep.P ≠ 1 :=
      gcd_ne_one_of_modEq_zero (by decide) (by simp)
    have hw : ModInverse (2 * 1 * 0) CurveP25519.ep.P = none :=
      (ModInverse_eq_none_iff curveP_pos).mpr hg
    simp only [DoubleGeneralCase, hw]
  · intro x1 y1 h
    exact Double_eq_general_case CurveP25519 x1 y1
      (fun h0 => h.elim (fun hx => hx h0.1) (fun hy => hy h0.2))

/-- Witness of C11: the generator goes through the general case. -/
theorem double_short_circuit_only_at_origin_witness :
    Double CurveP25519 9
        14781619447589544791020593568409986887264606134616475288964881837755586237401
      = DoubleGeneralCase CurveP25519 9
        14781619447589544791020593568409986887264606134616475288964881837755586237401 :=
  double_short_circuit_only_at_origin.2.2 9
    14781619447589544791020593568409986887264606134616475288964881837755586237401
    (Or.inl (by decide))

/-- Every call of `CurveP25519` returns the record of `initCurve25519`, and from the
first call on the `sync.Once` has fired. -/
theorem callCurveP25519_returns (n : Nat) :
    (callCurveP25519 (afterCalls n)).1 = some CurveP25519 ∧
    (callCurveP25519 (afterCalls n)).2 = { initonce := true, curve25519 := some CurveP25519 } := by
  induction n with
  | zero => exact ⟨rfl, rfl⟩
  | succ k ih =>
    have h : afterCalls (k + 1) = { initonce := true, curve25519 := some CurveP25519 } := ih.2
    rw [h]
    exact ⟨rfl, rfl⟩

/-- C17: the record returned by `CurveP25519().Params()` holds `P = 2^255 - 19`,
`N = 2^252 + 27742317777372353535851937790883648493`, `A = 486662` in the field `B`,
`Gx = 9`, `Gy = 14781619447589544791020593568409986887264606134616475288964881837755586237401`
and `BitSize = 256`, and every call of `CurveP25519` returns this same record. -/
theorem params_record_is_curve25519_domain :
    (Params CurveP25519).P = 2 ^ 255 - 19 ∧
    (Params CurveP25519).N = 2 ^ 252 + 27742317777372353535851937790883648493 ∧
    (Params CurveP25519).B = 486662 ∧
    (Params CurveP25519).Gx = 9 ∧
    (Params CurveP25519).Gy
      = 14781619447589544791020593568409986887264606134616475288964881837755586237401 ∧
    (Params CurveP25519).BitSize = 256 ∧
    ∀ n : Nat, (callCurveP25519 (afterCalls n)).1 = some CurveP25519 := by
  refine ⟨fieldP_eq, ?_, rfl, rfl, rfl, rfl, fun n => (callCurveP25519_returns n).1⟩
  norm_num [Params, CurveP25519, initCurve25519]


/-- An operand with an inverse modulo `P` is not zero. -/
theorem ne_zero_of_invertible {a z : Int} (h : a * z ≡ 1 [ZMOD CurveP25519.ep.P]) : a ≠ 0 := by
  intro ha
  subst ha
  exact gcd_ne_one_of_modEq_zero (by decide) (Int.ModEq.refl 0) (gcd_eq_one_of_mul_modEq_one h)

/-- C16: the generator of `Params()` satisfies `IsOnCurve`, while `IsOnCurve(Gx + 1, Gy)`
and `IsOnCurve(Gx, Gy + 1)` are false; for every `(x, y)` that satisfies `IsOnCurve`,
`IsOnCurve(x, y + 1)` is true only if `2*y + 1 ≡ 0 (mod P)`, and `IsOnCurve(x + 1, y)` is
true only if `3*x^2 + (2*A + 3)*x + A + 2 ≡ 0 (mod P)`. -/
theorem isOnCurve_generator_and_perturbations :
    IsOnCurve CurveP25519 (Params CurveP25519).Gx (Params CurveP25519).Gy = true ∧
    IsOnCurve CurveP25519 ((Params CurveP25519).Gx + 1) (Params CurveP25519).Gy = false ∧
    IsOnCurve CurveP25519 (Params CurveP25519).Gx ((Params CurveP25519).Gy + 1) = false ∧
    ∀ x y : Int, IsOnCurve CurveP25519 x y = true →
      (IsOnCurve CurveP25519 x (y + 1) = true →
        2 * y + 1 ≡ 0 [ZMOD (Params CurveP25519).P]) ∧
      (IsOnCurve CurveP25519 (x + 1) y = true →
        3 * x ^ 2 + (2 * (Params CurveP25519).B + 3) * x + (Params CurveP25519).B + 2
          ≡ 0 [ZMOD (Params CurveP25519).P]) := by
  refine ⟨by decide, by decide, by decide, ?_⟩
  intro x y hon
  have hP : (0 : Int) ≤ CurveP25519.ep.P := curveP_pos.le
  rw [IsOnCurve_iff, modEq_iff_cast hP] at hon
  push_cast at hon
  constructor
  · intro h
    rw [IsOnCurve_iff, modEq_iff_cast hP] at h
    show 2 * y + 1 ≡ 0 [ZMOD CurveP25519.ep.P]
    rw [modEq_iff_cast hP]
    push_cast at h ⊢
    linear_combination h - hon
  · intro h
    rw [IsOnCurve_iff, modEq_iff_cast hP] at h
    show 3 * x ^ 2 + (2 * CurveP25519.ep.B + 3) * x + CurveP25519.ep.B + 2
      ≡ 0 [ZMOD CurveP25519.ep.P]
    rw [modEq_iff_cast hP]
    push_cast at h ⊢
    linear_combination hon - h

/-- Witness of C16: a curve point whose abscissa can be raised by one. -/
theorem isOnCurve_generator_and_perturbations_witness :
    3 * (53837340487088209933919005822914128929838759766453952544111990421460671651062 : Int) ^ 2
        + (2 * (Params CurveP25519).B + 3)
          * 53837340487088209933919005822914128929838759766453952544111990421460671651062
        + (Params CurveP25519).B + 2
      ≡ 0 [ZMOD (Params CurveP25519).P] :=
  (isOnCurve_generator_and_perturbations.2.2.2
    53837340487088209933919005822914128929838759766453952544111990421460671651062
    3357028626610778358157242340352194200778516823534087676251117707879658347066
    (by decide)).2 (by decide)

/-- The x-only doubling identity in a commutative ring. -/
theorem x_only_doubling {R : Type*} [CommRing R] (A X1 Y1 L X3 : R)
    (h1 : Y1 ^ 2 = X1 ^ 3 + A * X1 ^ 2 + X1)
    (h2 : 2 * Y1 * L = 3 * X1 ^ 2 + 2 * A * X1 + 1)
    (h3 : X3 = L ^ 2 - A - 2 * X1) :
    4 * X1 * (X1 ^ 2 + A * X1 + 1) * X3 = (X1 ^ 2 - 1) ^ 2 := by
  subst h3
  linear_combination (-(4 * L ^ 2)) * h1
    + (2 * Y1 * L + (3 * X1 ^ 2 + 2 * A * X1 + 1)) * h2

/-- The abscissa that `Double` returns satisfies the x-only doubling congruence, for any
curve record with a positive modulus. -/
theorem Double_x_only (curve : Curve25519Params) (x1 y1 : Int) (hP : 0 < curve.ep.P)
    (hne : ¬ (x1 = 0 ∧ y1 = 0)) (hon : IsOnCurve curve x1 y1 = true)
    (hinv : ∃ z : Int, 2 * y1 * z ≡ 1 [ZMOD curve.ep.P]) :
    ∃ x3 y3 : Int, Double curve x1 y1 = some (x3, y3) ∧
      (0 ≤ x3 ∧ x3 < curve.ep.P) ∧
      4 * x1 * (x1 ^ 2 + curve.ep.B * x1 + 1) * x3 ≡ (x1 ^ 2 - 1) ^ 2 [ZMOD curve.ep.P] := by
  obtain ⟨x3, y3, L, hD, hxb, -, hL, hx, -⟩ := Double_general curve x1 y1 hP hne hinv
  refine ⟨x3, y3, hD, hxb, ?_⟩
  rw [IsOnCurve_iff] at hon
  rw [modEq_iff_cast hP.le] at hon hL hx ⊢
  push_cast at hon hL hx ⊢
  exact x_only_doubling _ _ _ _ _ hon hL hx

/-- Two ordinates over the same abscissa, both with `2*y` invertible, double to the same
abscissa, for any curve record with a positive modulus. -/
theorem Double_abscissa_unique (curve : Curve25519Params) (x1 y1 y1' : Int)
    (hP : 0 < curve.ep.P)
    (hne : ¬ (x1 = 0 ∧ y1 = 0)) (hne' : ¬ (x1 = 0 ∧ y1' = 0))
    (hon : IsOnCurve curve x1 y1 = true) (hon' : IsOnCurve curve x1 y1' = true)
    (hinv : ∃ z : Int, 2 * y1 * z ≡ 1 [ZMOD curve.ep.P])
    (hinv' : ∃ z : Int, 2 * y1' * z ≡ 1 [ZMOD curve.ep.P])
    (x3 y3 : Int) (hD : Double curve x1 y1 = some (x3, y3)) :
    ∃ y3' : Int, Double curve x1 y1' = some (x3, y3') := by
  obtain ⟨a, b, hDa, hab, hxa⟩ := Double_x_only curve x1 y1 hP hne hon hinv
  obtain ⟨a', b', hDa', hab', hxa'⟩ := Double_x_only curve x1 y1' hP hne' hon' hinv'
  rw [hD] at hDa
  injection hDa with hDa
  injection hDa with h1 h2
  subst h1 h2
  refine ⟨b', ?_⟩
  rw [hDa']
  obtain ⟨z, hz⟩ := hinv
  have hxx : x3 = a' := by
    refine eq_of_modEq_of_reduced hab hab' ?_
    rw [IsOnCurve_iff] at hon
    rw [modEq_iff_cast hP.le] at hon hz hxa hxa' ⊢
    push_cast at hon hz hxa hxa'
    have hu : (4 * (x1 : ZMod curve.ep.P.toNat)
        * ((x1 : ZMod curve.ep.P.toNat) ^ 2 + (curve.ep.B : ZMod curve.ep.P.toNat) * x1 + 1))
          * (z : ZMod curve.ep.P.toNat) ^ 2 = 1 := by
      linear_combination (-(4 * (z : ZMod curve.ep.P.toNat) ^ 2)) * hon
        + (2 * (y1 : ZMod curve.ep.P.toNat) * z + 1) * hz
    have hd : (4 * (x1 : ZMod curve.ep.P.toNat)
        * ((x1 : ZMod curve.ep.P.toNat) ^ 2 + (curve.ep.B : ZMod curve.ep.P.toNat) * x1 + 1))
          * ((x3 : ZMod curve.ep.P.toNat) - a') = 0 := by
      linear_combination hxa - hxa'
    have h0 : ((x3 : ZMod curve.ep.P.toNat) - a') = 0 := by
      have := congrArg (fun t => (z : ZMod curve.ep.P.toNat) ^ 2 * t) hd
      simp only [mul_zero] at this
      rw [← mul_assoc, mul_comm ((z : ZMod curve.ep.P.toNat) ^ 2), hu, one_mul] at this
      exact this
    exact sub_eq_zero.mp h0
  rw [hxx]


/-- C20: for every `(x1, y1)` that satisfies `IsOnCurve` and has `2*y1` invertible modulo
`P`, the abscissa `x3` returned by `Double` satisfies the x-only doubling congruence
`4*x1*(x1^2 + A*x1 + 1)*x3 ≡ (x1^2 - 1)^2 (mod P)`; it does not depend on the sign of
`y1`, nor on which ordinate over `x1` is taken. -/
theorem double_agrees_with_x_only_formula (x1 y1 : Int)
    (hon : IsOnCurve CurveP25519 x1 y1 = true)
    (hinv : ∃ z : Int, 2 * y1 * z ≡ 1 [ZMOD (Params CurveP25519).P]) :
    ∃ x3 y3 : Int, Double CurveP25519 x1 y1 = some (x3, y3) ∧
      4 * x1 * (x1 ^ 2 + (Params CurveP25519).B * x1 + 1) * x3
        ≡ (x1 ^ 2 - 1) ^ 2 [ZMOD (Params CurveP25519).P] ∧
      (∃ y3' : Int, Double CurveP25519 x1 (-y1) = some (x3, y3')) ∧
      ∀ y1' : Int, IsOnCurve CurveP25519 x1 y1' = true →
        (∃ z : Int, 2 * y1' * z ≡ 1 [ZMOD (Params CurveP25519).P]) →
        ∃ y3' : Int, Double CurveP25519 x1 y1' = some (x3, y3') := by
  have hy : ∀ y : Int, (∃ z : Int, 2 * y * z ≡ 1 [ZMOD CurveP25519.ep.P]) →
      ¬ (x1 = 0 ∧ y = 0) := by
    rintro y ⟨z, hz⟩ h0
    have h2 : 2 * y ≠ 0 := ne_zero_of_invertible hz
    exact h2 (by rw [h0.2, mul_zero])
  obtain ⟨x3, y3, hD, -, hx⟩ :=
    Double_x_only CurveP25519 x1 y1 curveP_pos (hy y1 hinv) hon hinv
  have hall : ∀ y1' : Int, IsOnCurve CurveP25519 x1 y1' = true →
      (∃ z : Int, 2 * y1' * z ≡ 1 [ZMOD CurveP25519.ep.P]) →
      ∃ y3' : Int, Double CurveP25519 x1 y1' = some (x3, y3') := fun y1' hon' hinv' =>
    Double_abscissa_unique CurveP25519 x1 y1 y1' curveP_pos (hy y1 hinv) (hy y1' hinv')
      hon hon' hinv hinv' x3 y3 hD
  refine ⟨x3, y3, hD, hx, ?_, hall⟩
  apply hall (-y1)
  · rw [IsOnCurve_iff] at hon ⊢
    rwa [neg_sq]
  · obtain ⟨z, hz⟩ := hinv
    refine ⟨-z, ?_⟩
    have e : 2 * -y1 * -z = 2 * y1 * z := by ring
    rw [e]
    exact hz

/-- Witness of C20 at the generator. -/
theorem double_agrees_with_x_only_formula_witness :
    ∃ x3 y3 : Int,
      Double CurveP25519 9
          14781619447589544791020593568409986887264606134616475288964881837755586237401
        = some (x3, y3) ∧
      4 * 9 * (9 ^ 2 + (Params CurveP25519).B * 9 + 1) * x3
        ≡ (9 ^ 2 - 1) ^ 2 [ZMOD (Params CurveP25519).P] :=
  let ⟨x3, y3, h, hx, _⟩ := double_agrees_with_x_only_formula 9
    14781619447589544791020593568409986887264606134616475288964881837755586237401
    (by decide)
    ⟨47153247641976783235043978286008082807854094794263057259831138242664083745149, by decide⟩
  ⟨x3, y3, h, hx⟩

/-! ## The claims on the scalar multiplication adapter -/

theorem copy32_length (src : List Nat) : (copy32 src).length = 32 := by
  simp only [copy32, List.length_append, List.length_take, List.length_replicate]
  omega

theorem copy32_take (src : List Nat) : copy32 (src.take 32) = copy32 src := by
  simp only [copy32, List.take_take, List.length_take, min_self]
  congr 2
  omega

theorem copy32_pad (src : List Nat) :
    copy32 (src ++ List.replicate (32 - src.length) 0) = copy32 src := by
  by_cases h : src.length ≤ 32
  · have hl : (src ++ List.replicate (32 - src.length) 0).length = 32 := by
      simp only [List.length_append, List.length_replicate]
      omega
    have ht : (src ++ List.replicate (32 - src.length) 0).take 32
        = src ++ List.replicate (32 - src.length) 0 := List.take_of_length_le (by omega)
    have hs : src.take 32 = src := List.take_of_length_le h
    simp only [copy32]
    rw [ht, hl, hs]
    simp
  · have h0 : 32 - src.length = 0 := by omega
    rw [h0]
    simp

/-- C14: for every byte sequence `k`, the scalar array that `ScalarMult` and
`ScalarBaseMult` hand to the primitive is 32 bytes long and consists of the first
`min(len(k), 32)` bytes of `k` followed by zero bytes; so `k` gives the same result as
its 32-byte prefix, and the same result as `k` with zero bytes appended up to length 32. -/
theorem scalar_buffer_truncates_and_pads (prim : Primitive) (x1 y1 : Int) (k : List Nat) :
    (ScalarMultBuffers x1 k).1
      = k.take (min k.length 32) ++ List.replicate (32 - min k.length 32) 0 ∧
    ScalarBaseMultBuffer k
      = k.take (min k.length 32) ++ List.replicate (32 - min k.length 32) 0 ∧
    ((ScalarMultBuffers x1 k).1).length = 32 ∧
    ScalarMult prim CurveP25519 x1 y1 k
      = (SetBytes (prim.ScalarMult (ScalarMultBuffers x1 k).1 (ScalarMultBuffers x1 k).2), 0) ∧
    ScalarBaseMult prim CurveP25519 k
      = (SetBytes (prim.ScalarBaseMult (ScalarBaseMultBuffer k)), 0) ∧
    ScalarMult prim CurveP25519 x1 y1 (k.take 32) = ScalarMult prim CurveP25519 x1 y1 k ∧
    ScalarBaseMult prim CurveP25519 (k.take 32) = ScalarBaseMult prim CurveP25519 k ∧
    ScalarMult prim CurveP25519 x1 y1 (k ++ List.replicate (32 - k.length) 0)
      = ScalarMult prim CurveP25519 x1 y1 k ∧
    ScalarBaseMult prim CurveP25519 (k ++ List.replicate (32 - k.length) 0)
      = ScalarBaseMult prim CurveP25519 k := by
  have hb : copy32 k = k.take (min k.length 32) ++ List.replicate (32 - min k.length 32) 0 := by
    simp only [copy32]
    congr 1
    · by_cases h : k.length ≤ 32
      · rw [min_eq_left h, List.take_of_length_le h, List.take_of_length_le le_rfl]
      · rw [min_eq_right (by omega)]
    · congr 1
      omega
  refine ⟨hb, hb, copy32_length k, rfl, rfl, ?_, ?_, ?_, ?_⟩
  · simp only [ScalarMult, ScalarMultBuffers, copy32_take]
  · simp only [ScalarBaseMult, ScalarBaseMultBuffer, copy32_take]
  · simp only [ScalarMult, ScalarMultBuffers, copy32_pad]
  · simp only [ScalarBaseMult, ScalarBaseMultBuffer, copy32_pad]

/-- C15: for every scalar `k` (of 32 bytes or not), `ScalarBaseMult(k)` returns the
same pair as `ScalarMult(Gx, Gy, k)`: `ScalarMult` hands the primitive the same scalar
array and the point array `0x09` followed by 31 zero bytes, the base point, given that
the primitive's base-point routine is its general routine at that base point. -/
theorem scalarBaseMult_eq_scalarMult_at_generator (prim : Primitive) (k : List Nat)
    (hbase : ∀ s : List Nat, prim.ScalarBaseMult s = prim.ScalarMult s basePoint) :
    ScalarBaseMult prim CurveP25519 k
      = ScalarMult prim CurveP25519 (Params CurveP25519).Gx (Params CurveP25519).Gy k ∧
    ScalarMultBuffers (Params CurveP25519).Gx k = (ScalarBaseMultBuffer k, basePoint) ∧
    basePoint = 9 :: List.replicate 31 0 := by
  have hu : copy32 (Bytes (Params CurveP25519).Gx) = basePoint := by decide
  have hbuf : ScalarMultBuffers (Params CurveP25519).Gx k = (ScalarBaseMultBuffer k, basePoint) := by
    simp only [ScalarMultBuffers, ScalarBaseMultBuffer, hu]
  refine ⟨?_, hbuf, rfl⟩
  simp only [ScalarBaseMult, ScalarMult, hbuf, hbase]

/-- Witness of C15: the X25519 primitive and the all-zero scalar. -/
theorem scalarBaseMult_eq_scalarMult_at_generator_witness :
    ScalarBaseMult x25519Primitive CurveP25519 (List.replicate 32 0)
      = ScalarMult x25519Primitive CurveP25519 (Params CurveP25519).Gx
          (Params CurveP25519).Gy (List.replicate 32 0) :=
  (scalarBaseMult_eq_scalarMult_at_generator x25519Primitive (List.replicate 32 0)
    (fun _ => rfl)).1


/-! ## The imported primitive on concrete inputs -/

set_option maxRecDepth 100000 in
/-- The function `X25519` on the first test vector of RFC 7748, section 5.2. -/
theorem X25519_rfc7748_vector :
    X25519
      [0xa5, 0x46, 0xe3, 0x6b, 0xf0, 0x52, 0x7c, 0x9d, 0x3b, 0x16, 0x15, 0x4b, 0x82, 0x46,
       0x5e, 0xdd, 0x62, 0x14, 0x4c, 0x0a, 0xc1, 0xfc, 0x5a, 0x18, 0x50, 0x6a, 0x22, 0x44,
       0xba, 0x44, 0x9a, 0xc4]
      [0xe6, 0xdb, 0x68, 0x67, 0x58, 0x30, 0x30, 0xdb, 0x35, 0x94, 0xc1, 0xa4, 0x24, 0xb1,
       0x5f, 0x7c, 0x72, 0x66, 0x24, 0xec, 0x26, 0xb3, 0x35, 0x3b, 0x10, 0xa9, 0x03, 0xa6,
       0xd0, 0xab, 0x1c, 0x4c]
    = [0xc3, 0xda, 0x55, 0x37, 0x9d, 0xe9, 0xc6, 0x90, 0x8e, 0x94, 0xea, 0x4d, 0xf2, 0x8d,
       0x08, 0x4f, 0x32, 0xec, 0xcf, 0x03, 0x49, 0x1c, 0x71, 0xf7, 0x54, 0xb4, 0x07, 0x55,
       0x77, 0xa2, 0x85, 0x52] := by
  decide

set_option maxRecDepth 100000 in
/-- The function `X25519` at the base point on the private key of RFC 7748, section 6.1:
the output is the public key given there. -/
theorem X25519_rfc7748_public_key :
    X25519
      [0x77, 0x07, 0x6d, 0x0a, 0x73, 0x18, 0xa5, 0x7d, 0x3c, 0x16, 0xc1, 0x72, 0x51, 0xb2,
       0x66, 0x45, 0xdf, 0x4c, 0x2f, 0x87, 0xeb, 0xc0, 0x99, 0x2a, 0xb1, 0x77, 0xfb, 0xa5,
       0x1d, 0xb9, 0x2c, 0x2a]
      basePoint
    = [0x85, 0x20, 0xf0, 0x09, 0x89, 0x30, 0xa7, 0x54, 0x74, 0x8b, 0x7d, 0xdc, 0xb4, 0x3e,
       0xf7, 0x5a, 0x0d, 0xbf, 0x3a, 0x0d, 0x26, 0x38, 0x1a, 0xf4, 0xeb, 0xa4, 0xa9, 0x8e,
       0xaa, 0x9b, 0x4e, 0x6a] := by
  decide

set_option maxRecDepth 100000 in
/-- The function `X25519` at the base point on the all-zero scalar. -/
theorem X25519_zero_scalar :
    X25519 (List.replicate 32 0) basePoint
    = [47, 229, 125, 163, 71, 205, 98, 67, 21, 40, 218, 172, 95, 187, 41, 7, 48, 255, 246,
       132, 175, 196, 207, 194, 237, 144, 153, 95, 88, 203, 59, 116] := by
  decide

set_option maxRecDepth 100000 in
/-- The function `X25519` at the base point on the scalar `0x01` followed by zero bytes. -/
theorem X25519_one_scalar :
    X25519 (1 :: List.replicate 31 0) basePoint
    = [47, 229, 125, 163, 71, 205, 98, 67, 21, 40, 218, 172, 95, 187, 41, 7, 48, 255, 246,
       132, 175, 196, 207, 194, 237, 144, 153, 95, 88, 203, 59, 116] := by
  decide

set_option maxRecDepth 100000 in
/-- The function `X25519` at the base point on the scalar `0xa0, 0x0a` followed by zero
bytes: the first byte of the output is zero. -/
theorem X25519_leading_zero_output :
    X25519 (160 :: 10 :: List.replicate 30 0) basePoint
    = [0, 182, 7, 206, 244, 42, 131, 36, 217, 144, 170, 166, 241, 157, 25, 13, 62, 233, 18,
       3, 105, 173, 228, 208, 249, 75, 83, 158, 219, 5, 11, 100] := by
  decide


/-! ## The byte conversions as digit expansions -/

/-- With enough rounds `bytesLE` is the base-256 digit expansion. -/
theorem bytesLE_eq_digits : ∀ (fuel n : Nat), n ≤ fuel → bytesLE fuel n = Nat.digits 256 n := by
  intro fuel
  induction fuel with
  | zero =>
    intro n hn
    have h0 : n = 0 := by omega
    subst h0
    simp [bytesLE]
  | succ f ih =>
    intro n hn
    unfold bytesLE
    by_cases h0 : n = 0
    · subst h0
      simp
    · rw [if_neg h0, Nat.digits_def' (by norm_num) (Nat.pos_of_ne_zero h0)]
      congr 1
      apply ih
      have : n / 256 < n := Nat.div_lt_self (Nat.pos_of_ne_zero h0) (by norm_num)
      omega

/-- The method `Bytes` returns the base-256 digits of the absolute value, highest first. -/
theorem Bytes_eq_digits (x : Int) : Bytes x = (Nat.digits 256 x.natAbs).reverse := by
  unfold Bytes
  rw [bytesLE_eq_digits _ _ le_rfl]

theorem SetBytes_foldl (buf : List Nat) (acc : Nat) :
    List.foldl (fun (a : Int) (b : Nat) => a * 256 + (b : Int)) (acc : Int) buf
      = ((List.foldl (fun (a b : Nat) => b + 256 * a) acc buf : Nat) : Int) := by
  induction buf generalizing acc with
  | nil => rfl
  | cons b t ih =>
    simp only [List.foldl_cons]
    have e : (acc : Int) * 256 + (b : Int) = ((b + 256 * acc : Nat) : Int) := by
      push_cast
      ring
    rw [e, ih]

/-- The method `SetBytes` reads the buffer as base-256 digits, highest first. -/
theorem SetBytes_eq_ofDigits (buf : List Nat) :
    SetBytes buf = ((Nat.ofDigits 256 buf.reverse : Nat) : Int) := by
  unfold SetBytes
  have h := SetBytes_foldl buf 0
  simp only [Nat.cast_zero] at h
  rw [h, Nat.ofDigits_eq_foldr, List.foldr_reverse]
  rfl

/-- A buffer whose first byte is not zero comes back from `SetBytes` then `Bytes`. -/
theorem Bytes_SetBytes (buf : List Nat) (hb : ∀ b ∈ buf, b < 256)
    (h0 : ∀ h : buf ≠ [], buf.head h ≠ 0) : Bytes (SetBytes buf) = buf := by
  rw [Bytes_eq_digits, SetBytes_eq_ofDigits, Int.natAbs_ofNat,
    Nat.digits_ofDigits 256 (by norm_num) buf.reverse
      (fun l hl => hb l (List.mem_reverse.mp hl))
      (fun h => by
        have hne : buf ≠ [] := fun e => h (by rw [e]; rfl)
        rw [List.getLast_reverse]
        exact h0 hne),
    List.reverse_reverse]

theorem copy32_of_length (buf : List Nat) (h : buf.length = 32) : copy32 buf = buf := by
  simp only [copy32, h, List.take_of_length_le (le_of_eq h)]
  simp


/-! ## The claims on the byte order at the boundary of the primitive -/

/-- The point array of `ScalarMult` holds the base-256 digits of `|x1|`, highest first,
cut to 32 bytes and followed by zero bytes. -/
theorem ScalarMultBuffers_point (x1 : Int) (k : List Nat) :
    (ScalarMultBuffers x1 k).2 = copy32 ((Nat.digits 256 x1.natAbs).reverse) := by
  simp only [ScalarMultBuffers, Bytes_eq_digits]

set_option maxRecDepth 100000 in
/-- For an abscissa of a single byte the point array is the little-endian encoding. -/
theorem point_buffer_single_byte :
    ∀ n : Fin 256, copy32 (Bytes (n.val : Int)) = encodeLittleEndian32 n.val := by
  decide

/-- A buffer of 32 bytes whose first byte is not zero makes the round trip: the point
array that `ScalarMult` builds from the integer read by `SetBytes` is the buffer. -/
theorem point_buffer_round_trip (d k : List Nat) (hlen : d.length = 32)
    (hb : ∀ b ∈ d, b < 256) (h0 : ∀ h : d ≠ [], d.head h ≠ 0) :
    (ScalarMultBuffers (SetBytes d) k).2 = d := by
  simp only [ScalarMultBuffers, Bytes_SetBytes d hb h0, copy32_of_length d hlen]

set_option maxRecDepth 100000 in
/-- The key agreement of RFC 7748, section 6.1, through the adapter: with Bob's public
u-coordinate as `x1` and Alice's private key as `k`, the point array is Bob's public key
byte-reversed, and the primitive's output on it is not the shared secret that `X25519`
gives on Bob's public key. -/
theorem scalarMult_rfc7748_key_agreement :
    decodeLittleEndian
      [0xde, 0x9e, 0xdb, 0x7d, 0x7b, 0x7d, 0xc1, 0xb4, 0xd3, 0x5b, 0x61, 0xc2, 0xec, 0xe4,
       0x35, 0x37, 0x3f, 0x83, 0x43, 0xc8, 0x5b, 0x78, 0x67, 0x4d, 0xad, 0xfc, 0x7e, 0x14,
       0x6f, 0x88, 0x2b, 0x4f]
      = 35809631094079244041211258971985475468665640815735853089228998203411133079262 ∧
    X25519
      [0x77, 0x07, 0x6d, 0x0a, 0x73, 0x18, 0xa5, 0x7d, 0x3c, 0x16, 0xc1, 0x72, 0x51, 0xb2,
       0x66, 0x45, 0xdf, 0x4c, 0x2f, 0x87, 0xeb, 0xc0, 0x99, 0x2a, 0xb1, 0x77, 0xfb, 0xa5,
       0x1d, 0xb9, 0x2c, 0x2a]
      [0xde, 0x9e, 0xdb, 0x7d, 0x7b, 0x7d, 0xc1, 0xb4, 0xd3, 0x5b, 0x61, 0xc2, 0xec, 0xe4,
       0x35, 0x37, 0x3f, 0x83, 0x43, 0xc8, 0x5b, 0x78, 0x67, 0x4d, 0xad, 0xfc, 0x7e, 0x14,
       0x6f, 0x88, 0x2b, 0x4f]
      = [0x4a, 0x5d, 0x9d, 0x5b, 0xa4, 0xce, 0x2d, 0xe1, 0x72, 0x8e, 0x3b, 0xf4, 0x80, 0x35,
         0x0f, 0x25, 0xe0, 0x7e, 0x21, 0xc9, 0x47, 0xd1, 0x9e, 0x33, 0x76, 0xf0, 0x9b, 0x3c,
         0x1e, 0x16, 0x17, 0x42] ∧
    (ScalarMultBuffers
        35809631094079244041211258971985475468665640815735853089228998203411133079262
        [0x77, 0x07, 0x6d, 0x0a, 0x73, 0x18, 0xa5, 0x7d, 0x3c, 0x16, 0xc1, 0x72, 0x51, 0xb2,
         0x66, 0x45, 0xdf, 0x4c, 0x2f, 0x87, 0xeb, 0xc0, 0x99, 0x2a, 0xb1, 0x77, 0xfb, 0xa5,
         0x1d, 0xb9, 0x2c, 0x2a]).2
      = [0x4f, 0x2b, 0x88, 0x6f, 0x14, 0x7e, 0xfc, 0xad, 0x4d, 0x67, 0x78, 0x5b, 0xc8, 0x43,
         0x83, 0x3f, 0x37, 0x35, 0xe4, 0xec, 0xc2, 0x61, 0x5b, 0xd3, 0xb4, 0xc1, 0x7d, 0x7b,
         0x7d, 0xdb, 0x9e, 0xde] ∧
    ScalarMult x25519Primitive CurveP25519
        35809631094079244041211258971985475468665640815735853089228998203411133079262 0
        [0x77, 0x07, 0x6d, 0x0a, 0x73, 0x18, 0xa5, 0x7d, 0x3c, 0x16, 0xc1, 0x72, 0x51, 0xb2,
         0x66, 0x45, 0xdf, 0x4c, 0x2f, 0x87, 0xeb, 0xc0, 0x99, 0x2a, 0xb1, 0x77, 0xfb, 0xa5,
         0x1d, 0xb9, 0x2c, 0x2a]
      = (SetBytes
          [243, 77, 208, 112, 95, 214, 66, 27, 39, 14, 100, 126, 66, 248, 214, 143, 65, 230,
           26, 227, 179, 218, 129, 165, 235, 79, 54, 63, 0, 85, 73, 37], 0) := by
  decide

/-- C12, at the failing input `x1 = 256`: the point array that `ScalarMult` hands to
the primitive is `0x01` followed by 31 zero bytes, the big-endian bytes of `256` with
zero bytes after them, while the 32-byte little-endian encoding of `256` is
`0x00, 0x01` followed by 30 zero bytes. -/
theorem scalarMult_point_buffer_at_256 (prim : Primitive) (y1 : Int) (k : List Nat) :
    (ScalarMultBuffers 256 k).2 = 1 :: List.replicate 31 0 ∧
    encodeLittleEndian32 256 = 0 :: 1 :: List.replicate 30 0 ∧
    (ScalarMultBuffers 256 k).2 ≠ encodeLittleEndian32 256 ∧
    ScalarMult prim CurveP25519 256 y1 k
      = (SetBytes (prim.ScalarMult (copy32 k) (1 :: List.replicate 31 0)), 0) := by
  have h1 : (ScalarMultBuffers 256 k).2 = 1 :: List.replicate 31 0 := by
    have : copy32 (Bytes 256) = 1 :: List.replicate 31 0 := by decide
    simp only [ScalarMultBuffers, this]
  have h2 : encodeLittleEndian32 256 = 0 :: 1 :: List.replicate 30 0 := by decide
  refine ⟨h1, h2, ?_, ?_⟩
  · rw [h1, h2]
    decide
  · have : ScalarMultBuffers 256 k = (copy32 k, 1 :: List.replicate 31 0) := by
      rw [← h1]
      rfl
    simp only [ScalarMult, this]

/-- C13, at the failing input of the private key of RFC 7748, section 6.1: both methods
return `v = 0` and `u = SetBytes(dst)`, the output array read big-endian; on that key
`ScalarBaseMult` returns `u = 60215…0122`, while the integer whose little-endian
encoding is the output array, the u-coordinate of the public key, is `48084…0437`. -/
theorem scalarBaseMult_reads_output_big_endian (prim : Primitive) (x1 y1 : Int)
    (k : List Nat) :
    ScalarBaseMult prim CurveP25519 k = (SetBytes (prim.ScalarBaseMult (copy32 k)), 0) ∧
    ScalarMult prim CurveP25519 x1 y1 k
      = (SetBytes (prim.ScalarMult (copy32 k) (copy32 (Bytes x1))), 0) ∧
    ScalarBaseMult x25519Primitive CurveP25519
        [0x77, 0x07, 0x6d, 0x0a, 0x73, 0x18, 0xa5, 0x7d, 0x3c, 0x16, 0xc1, 0x72, 0x51, 0xb2,
         0x66, 0x45, 0xdf, 0x4c, 0x2f, 0x87, 0xeb, 0xc0, 0x99, 0x2a, 0xb1, 0x77, 0xfb, 0xa5,
         0x1d, 0xb9, 0x2c, 0x2a]
      = (60215804643857886593931319762176713846006201287399248104420517667066481430122, 0) ∧
    decodeLittleEndian (x25519Primitive.ScalarBaseMult
        [0x77, 0x07, 0x6d, 0x0a, 0x73, 0x18, 0xa5, 0x7d, 0x3c, 0x16, 0xc1, 0x72, 0x51, 0xb2,
         0x66, 0x45, 0xdf, 0x4c, 0x2f, 0x87, 0xeb, 0xc0, 0x99, 0x2a, 0xb1, 0x77, 0xfb, 0xa5,
         0x1d, 0xb9, 0x2c, 0x2a])
      = 48084050389777770101701157326923977117307187144965043058462938058489685090437 := by
  refine ⟨rfl, rfl, ?_, ?_⟩
  · have hc : ScalarBaseMultBuffer
        [0x77, 0x07, 0x6d, 0x0a, 0x73, 0x18, 0xa5, 0x7d, 0x3c, 0x16, 0xc1, 0x72, 0x51, 0xb2,
         0x66, 0x45, 0xdf, 0x4c, 0x2f, 0x87, 0xeb, 0xc0, 0x99, 0x2a, 0xb1, 0x77, 0xfb, 0xa5,
         0x1d, 0xb9, 0x2c, 0x2a]
        = [0x77, 0x07, 0x6d, 0x0a, 0x73, 0x18, 0xa5, 0x7d, 0x3c, 0x16, 0xc1, 0x72, 0x51, 0xb2,
         0x66, 0x45, 0xdf, 0x4c, 0x2f, 0x87, 0xeb, 0xc0, 0x99, 0x2a, 0xb1, 0x77, 0xfb, 0xa5,
         0x1d, 0xb9, 0x2c, 0x2a] := by decide
    simp only [ScalarBaseMult, hc, x25519Primitive, X25519_rfc7748_public_key]
    decide
  · simp only [x25519Primitive, X25519_rfc7748_public_key]
    decide


/-- Whatever the primitive, when it writes the little-endian encoding of `9` the value
that `ScalarBaseMult` returns is `9 * 256^31`, the output array read big-endian. -/
theorem scalarBaseMult_of_base_point_output (prim : Primitive) (k : List Nat)
    (h : prim.ScalarBaseMult (ScalarBaseMultBuffer k) = encodeLittleEndian32 9) :
    ScalarBaseMult prim CurveP25519 k = (9 * 256 ^ 31, 0) := by
  simp only [ScalarBaseMult, h]
  decide

/-- The four calls of C18 return the pair read from the one output array of `X25519`. -/
theorem scalar_mult_small_scalars_value :
    ScalarBaseMult x25519Primitive CurveP25519 (List.replicate 32 0)
      = (21664178981574088549091783804973693259502625190334133079418818890866358958964, 0) ∧
    ScalarBaseMult x25519Primitive CurveP25519 (1 :: List.replicate 31 0)
      = (21664178981574088549091783804973693259502625190334133079418818890866358958964, 0) ∧
    ScalarMult x25519Primitive CurveP25519 (Params CurveP25519).Gx (Params CurveP25519).Gy
        (List.replicate 32 0)
      = (21664178981574088549091783804973693259502625190334133079418818890866358958964, 0) ∧
    ScalarMult x25519Primitive CurveP25519 (Params CurveP25519).Gx (Params CurveP25519).Gy
        (1 :: List.replicate 31 0)
      = (21664178981574088549091783804973693259502625190334133079418818890866358958964, 0) := by
  have hz : ScalarBaseMultBuffer (List.replicate 32 0) = List.replicate 32 0 := by decide
  have ho : ScalarBaseMultBuffer (1 :: List.replicate 31 0) = 1 :: List.replicate 31 0 := by
    decide
  have hbz : ScalarMultBuffers (Params CurveP25519).Gx (List.replicate 32 0)
      = (List.replicate 32 0, basePoint) := by decide
  have hbo : ScalarMultBuffers (Params CurveP25519).Gx (1 :: List.replicate 31 0)
      = (1 :: List.replicate 31 0, basePoint) := by decide
  refine ⟨?_, ?_, ?_, ?_⟩
  · simp only [ScalarBaseMult, hz, x25519Primitive, X25519_zero_scalar]
    decide
  · simp only [ScalarBaseMult, ho, x25519Primitive, X25519_one_scalar]
    decide
  · simp only [ScalarMult, hbz, x25519Primitive, X25519_zero_scalar]
    decide
  · simp only [ScalarMult, hbo, x25519Primitive, X25519_one_scalar]
    decide

/-- With `X25519` as the primitive, `ScalarBaseMult` and `ScalarMult(Gx, Gy, .)` on the
all-zero scalar do not return `u = 0`, and on the scalar `0x01` followed by 31 zero
bytes they do not return `u = 9`. -/
theorem scalar_mult_small_scalars_counterexample :
    (ScalarBaseMult x25519Primitive CurveP25519 (List.replicate 32 0)).1 ≠ 0 ∧
    (ScalarMult x25519Primitive CurveP25519 (Params CurveP25519).Gx (Params CurveP25519).Gy
        (List.replicate 32 0)).1 ≠ 0 ∧
    (ScalarBaseMult x25519Primitive CurveP25519 (1 :: List.replicate 31 0)).1 ≠ 9 ∧
    (ScalarMult x25519Primitive CurveP25519 (Params CurveP25519).Gx (Params CurveP25519).Gy
        (1 :: List.replicate 31 0)).1 ≠ 9 := by
  obtain ⟨h1, h2, h3, h4⟩ := scalar_mult_small_scalars_value
  rw [h1, h2, h3, h4]
  decide

/-- C18, at the failing inputs of the all-zero scalar and of the scalar `0x01` followed
by 31 zero bytes, with `X25519` as the primitive: the primitive clamps both scalars to
the multiplier `2^254` and writes the encoding of the u-coordinate `52573…5599` of
`2^254` times the base point; `ScalarBaseMult` and `ScalarMult(Gx, Gy, .)` return one
and the same pair on both scalars, `(21664…8964, 0)`, whose `u` is neither the `0` nor
the `9` that the claim names. -/
theorem scalar_mult_small_scalars_clamped :
    decodeScalar25519 (List.replicate 32 0) = 2 ^ 254 ∧
    decodeScalar25519 (1 :: List.replicate 31 0) = 2 ^ 254 ∧
    x25519Primitive.ScalarBaseMult (ScalarBaseMultBuffer (List.replicate 32 0))
      = encodeLittleEndian32
          52573937849532372069814888178136277301931757964231753054399601207743438775599 ∧
    x25519Primitive.ScalarBaseMult (ScalarBaseMultBuffer (1 :: List.replicate 31 0))
      = encodeLittleEndian32
          52573937849532372069814888178136277301931757964231753054399601207743438775599 ∧
    ScalarBaseMult x25519Primitive CurveP25519 (1 :: List.replicate 31 0)
      = ScalarBaseMult x25519Primitive CurveP25519 (List.replicate 32 0) ∧
    ScalarMult x25519Primitive CurveP25519 (Params CurveP25519).Gx (Params CurveP25519).Gy
        (List.replicate 32 0)
      = ScalarBaseMult x25519Primitive CurveP25519 (List.replicate 32 0) ∧
    ScalarMult x25519Primitive CurveP25519 (Params CurveP25519).Gx (Params CurveP25519).Gy
        (1 :: List.replicate 31 0)
      = ScalarBaseMult x25519Primitive CurveP25519 (List.replicate 32 0) ∧
    (ScalarBaseMult x25519Primitive CurveP25519 (List.replicate 32 0)).2 = 0 ∧
    (ScalarBaseMult x25519Primitive CurveP25519 (List.replicate 32 0)).1 ≠ 0 ∧
    (ScalarBaseMult x25519Primitive CurveP25519 (List.replicate 32 0)).1 ≠ 9 ∧
    ScalarBaseMult x25519Primitive CurveP25519 (1 :: List.replicate 31 0)
      = (21664178981574088549091783804973693259502625190334133079418818890866358958964, 0) := by
  obtain ⟨h1, h2, h3, h4⟩ := scalar_mult_small_scalars_value
  have hz : ScalarBaseMultBuffer (List.replicate 32 0) = List.replicate 32 0 := by decide
  have ho : ScalarBaseMultBuffer (1 :: List.replicate 31 0) = 1 :: List.replicate 31 0 := by
    decide
  refine ⟨by decide, by decide, ?_, ?_, ?_, ?_, ?_, ?_, ?_, ?_, h2⟩
  · simp only [hz, x25519Primitive, X25519_zero_scalar]
    decide
  · simp only [ho, x25519Primitive, X25519_one_scalar]
    decide
  · rw [h1, h2]
  · rw [h1, h3]
  · rw [h1, h4]
  · rw [h1]
  · rw [h1]
    decide
  · rw [h1]
    decide

/-- C19, at the failing input of the scalar `0xa0, 0x0a` followed by zero bytes: the
output array `d` of the primitive begins with a zero byte; `ScalarBaseMult` returns
`u = SetBytes(d)`, and the point array that `ScalarMult(u, y, k)` builds from `u` is `d`
without its first byte and with a zero byte at the end, not `d`. -/
theorem scalarMult_chain_drops_leading_zero (k : List Nat) :
    x25519Primitive.ScalarBaseMult (ScalarBaseMultBuffer (160 :: 10 :: List.replicate 30 0))
      = [0, 182, 7, 206, 244, 42, 131, 36, 217, 144, 170, 166, 241, 157, 25, 13, 62, 233, 18,
         3, 105, 173, 228, 208, 249, 75, 83, 158, 219, 5, 11, 100] ∧
    ScalarBaseMult x25519Primitive CurveP25519 (160 :: 10 :: List.replicate 30 0)
      = (321620057476794620136437335506642190307088241233632466681194247749087071076, 0) ∧
    (ScalarMultBuffers
        321620057476794620136437335506642190307088241233632466681194247749087071076 k).2
      = [182, 7, 206, 244, 42, 131, 36, 217, 144, 170, 166, 241, 157, 25, 13, 62, 233, 18,
         3, 105, 173, 228, 208, 249, 75, 83, 158, 219, 5, 11, 100, 0] ∧
    (ScalarMultBuffers
        321620057476794620136437335506642190307088241233632466681194247749087071076 k).2
      ≠ x25519Primitive.ScalarBaseMult
          (ScalarBaseMultBuffer (160 :: 10 :: List.replicate 30 0)) := by
  have hk : ScalarBaseMultBuffer (160 :: 10 :: List.replicate 30 0)
      = 160 :: 10 :: List.replicate 30 0 := by decide
  have hd : x25519Primitive.ScalarBaseMult
      (ScalarBaseMultBuffer (160 :: 10 :: List.replicate 30 0))
      = [0, 182, 7, 206, 244, 42, 131, 36, 217, 144, 170, 166, 241, 157, 25, 13, 62, 233, 18,
         3, 105, 173, 228, 208, 249, 75, 83, 158, 219, 5, 11, 100] := by
    simp only [hk, x25519Primitive, X25519_leading_zero_output]
  have hu : copy32 (Bytes
      321620057476794620136437335506642190307088241233632466681194247749087071076)
      = [182, 7, 206, 244, 42, 131, 36, 217, 144, 170, 166, 241, 157, 25, 13, 62, 233, 18,
         3, 105, 173, 228, 208, 249, 75, 83, 158, 219, 5, 11, 100, 0] := by decide
  have hb : (ScalarMultBuffers
      321620057476794620136437335506642190307088241233632466681194247749087071076 k).2
      = [182, 7, 206, 244, 42, 131, 36, 217, 144, 170, 166, 241, 157, 25, 13, 62, 233, 18,
         3, 105, 173, 228, 208, 249, 75, 83, 158, 219, 5, 11, 100, 0] := by
    simp only [ScalarMultBuffers, hu]
  refine ⟨hd, ?_, hb, ?_⟩
  · simp only [ScalarBaseMult, hd]
    decide
  · rw [hb, hd]
    decide


end Curve25519
